import Mathlib

/-! # go-hep: the typed ROOT buffer reader, the `TBranch` decoder and energy smearing

A shallow embedding of

* `groot/rbytes/rbuffer_gen.go`: the generated scalar and array readers of
  `RBuffer` (`ReadU16` … `ReadF64`, `ReadArrayU16` … `ReadArrayF64`);
* `branch.go`: `tbranch.UnmarshalROOT`;
* `energy_smearing.go`: `EnergySmearing.Process`.

Conventions of the embedding.

* A Go byte slice is a `List Byte`; its capacity is taken equal to its length,
  so a slice expression `p[lo:hi]` with `hi > len(p)` is a run-time panic.
* Go `int` is 64 bits wide and no buffer is long enough for `c + 8*n` to wrap,
  so cursor arithmetic is done in `Nat`.
* A Go method with a pointer receiver becomes a function from the state before
  the call to an `Exec`: either a normal return (value and state after) or a
  panic (panic value and the state at the moment of the panic, since writes
  made through the pointer before the panic stay visible).
* A `float32`/`float64` is represented by its IEEE-754 bit pattern, which is
  exact for `math.Float32frombits`/`math.Float64frombits`.
* `branch.go` calls methods of `RBuffer` (`Err`, `Pos`, `ReadVersion`, `ReadI8`,
  `ReadFastArrayI32/I64`, `ReadString`, `CheckByteCount`) whose code is not in the
  sources at hand; they are modelled from the specification and marked so. The
  decoders of `tnamed`, `attfill` and `objarray` are left open (`Decoders`).
-/

namespace Hep

/-! ## Bytes, slices and `encoding/binary` -/

abbrev Byte := Fin 256

/-- Go slice expression `p[lo:hi]` on a slice whose capacity equals its length:
`none` stands for the "slice bounds out of range" panic. -/
def slice (p : List Byte) (lo hi : Nat) : Option (List Byte) :=
  if lo ≤ hi ∧ hi ≤ p.length then some ((p.drop lo).take (hi - lo)) else none

/-- Go `binary.BigEndian.Uint16`: `uint16(b[1]) | uint16(b[0])<<8`;
`none` is the index-out-of-range panic of the bounds check `_ = b[1]`. -/
def Uint16 (b : List Byte) : Option Nat :=
  match b with
  | b0 :: b1 :: _ => some (b1.val ||| (b0.val <<< 8))
  | _ => none

/-- Go `binary.BigEndian.Uint32`:
`uint32(b[3]) | uint32(b[2])<<8 | uint32(b[1])<<16 | uint32(b[0])<<24`. -/
def Uint32 (b : List Byte) : Option Nat :=
  match b with
  | b0 :: b1 :: b2 :: b3 :: _ =>
    some (b3.val ||| (b2.val <<< 8) ||| (b1.val <<< 16) ||| (b0.val <<< 24))
  | _ => none

/-- Go `binary.BigEndian.Uint64`. -/
def Uint64 (b : List Byte) : Option Nat :=
  match b with
  | b0 :: b1 :: b2 :: b3 :: b4 :: b5 :: b6 :: b7 :: _ =>
    some (b7.val ||| (b6.val <<< 8) ||| (b5.val <<< 16) ||| (b4.val <<< 24) |||
      (b3.val <<< 32) ||| (b2.val <<< 40) ||| (b1.val <<< 48) ||| (b0.val <<< 56))
  | _ => none

/-- Go conversion of an unsigned `bits`-wide integer to the signed type of the
same width (`int16(v)`, `int32(v)`, `int64(v)`): two's complement. -/
def toSigned (bits : Nat) (v : Nat) : Int :=
  if v % 2 ^ bits < 2 ^ (bits - 1) then ((v % 2 ^ bits : Nat) : Int)
  else ((v % 2 ^ bits : Nat) : Int) - ((2 ^ bits : Nat) : Int)

/-- A Go `float32`, held as its IEEE-754 bit pattern. -/
structure float32 where
  bits : Nat
  deriving DecidableEq, Repr

/-- A Go `float64`, held as its IEEE-754 bit pattern. -/
structure float64 where
  bits : Nat
  deriving DecidableEq, Repr

/-- Go `math.Float32frombits`. -/
def Float32frombits (v : Nat) : float32 := ⟨v⟩

/-- Go `math.Float64frombits`. -/
def Float64frombits (v : Nat) : float64 := ⟨v⟩

/-- Big-endian value of the `w` bytes of `p` that start at offset `off`:
`Σ_{i<w} p[off+i] * 256^(w-1-i)` (an absent byte counts as 0). -/
def beNat (p : List Byte) (off w : Nat) : Nat :=
  ∑ i ∈ Finset.range w, (p.getD (off + i) 0).val * 256 ^ (w - 1 - i)

/-! ## Errors, panics and executions -/

/-- The error values of the decoder (a Go `error`). -/
inductive Error where
  | Truncated (need have_ : Nat)
  | UnsupportedVersion (context : String) (version : Int)
  | UnknownClass (tag : String)
  | ProtocolError (context : String) (expectedEnd actualEnd : Int)
  | BadClassTag (raw : Nat)
  | Other (msg : String)
  deriving DecidableEq, Repr

/-- The value a Go panic carries. -/
inductive PanicVal where
  /-- run-time error: slice bounds or index out of range -/
  | outOfRange
  /-- run-time error: `make` with a negative length -/
  | makeNegative
  /-- run-time error: failed type assertion -/
  | typeAssertion
  /-- `panic(fmt.Errorf("rootio: too old TBanch version (%d<12)", vers))` -/
  | tooOldVersion (vers : Nat)
  deriving DecidableEq, Repr

/-- Outcome of running a Go function on a state of type `σ`. -/
inductive Exec (σ α : Type) where
  | ret (v : α) (s : σ)
  | panic (pv : PanicVal) (s : σ)
  deriving DecidableEq, Repr

/-- The state an execution ends in, whether by return or by panic. -/
def Exec.state {σ α : Type} : Exec σ α → σ
  | .ret _ s => s
  | .panic _ s => s

/-! ## `RBuffer` -/

/-- The byte cursor `r.r` of an `RBuffer`: the bytes `p` and the position `c`. -/
structure rbuff where
  p : List Byte
  c : Nat
  deriving DecidableEq, Repr

/-- The fields of `RBuffer` that the readers touch: the cursor `r` and the
sticky error `err` (`none` is Go `nil`). -/
structure RBuffer where
  r : rbuff
  err : Option Error
  deriving DecidableEq, Repr

/-- Modelled from the spec: `RBuffer.Len` is not in the sources at hand;
"`len()` → remaining = `|p| − c`". -/
def RBuffer.Len (r : RBuffer) : Int := (r.r.p.length : Int) - (r.r.c : Int)

/-- Modelled from the spec: `RBuffer.Pos` is not in the sources at hand;
"`pos()` → `c`". -/
def RBuffer.Pos (r : RBuffer) : Int := (r.r.c : Int)

/-- Modelled from the spec: `RBuffer.Err` is not in the sources at hand; it
hands out the sticky error of the buffer. -/
def RBuffer.Err (r : RBuffer) : Option Error := r.err

/-- The three `encoding/binary` decoders the generated readers use. -/
inductive Width where
  | w16 | w32 | w64
  deriving DecidableEq, Repr

/-- Number of bytes of an element: the literal `2`, `4` or `8` of the template. -/
def Width.size : Width → Nat
  | .w16 => 2
  | .w32 => 4
  | .w64 => 8

/-- The decoder of the template: `binary.BigEndian.Uint16/32/64`. -/
def Width.decode : Width → List Byte → Option Nat
  | .w16 => Uint16
  | .w32 => Uint32
  | .w64 => Uint64

/-- The template of the generated scalar readers, with the element size, the
`binary.BigEndian` decoder (`w`) and the final conversion (`conv`) left open:
```go
func (r *RBuffer) ReadT() T {
	if r.err != nil {
		return 0
	}
	beg := r.r.c
	r.r.c += size
	v := binary.BigEndian.UintN(r.r.p[beg:r.r.c])
	return conv(v)
}
``` -/
def readT {α : Type} (w : Width) (conv : Nat → α) (zero : α) (r : RBuffer) :
    Exec RBuffer α :=
  if r.err ≠ none then .ret zero r
  else
    let beg := r.r.c
    let r1 : RBuffer := { r with r := { r.r with c := r.r.c + w.size } }
    match slice r1.r.p beg r1.r.c with
    | none => .panic .outOfRange r1
    | some b =>
      match w.decode b with
      | none => .panic .outOfRange r1
      | some v => .ret (conv v) r1

def ReadU16 (r : RBuffer) : Exec RBuffer Nat := readT .w16 id 0 r
def ReadU32 (r : RBuffer) : Exec RBuffer Nat := readT .w32 id 0 r
def ReadU64 (r : RBuffer) : Exec RBuffer Nat := readT .w64 id 0 r
def ReadI16 (r : RBuffer) : Exec RBuffer Int := readT .w16 (toSigned 16) 0 r
def ReadI32 (r : RBuffer) : Exec RBuffer Int := readT .w32 (toSigned 32) 0 r
def ReadI64 (r : RBuffer) : Exec RBuffer Int := readT .w64 (toSigned 64) 0 r
def ReadF32 (r : RBuffer) : Exec RBuffer float32 := readT .w32 Float32frombits ⟨0⟩ r
def ReadF64 (r : RBuffer) : Exec RBuffer float64 := readT .w64 Float64frombits ⟨0⟩ r

/-- The loop of the generated array readers, `k` iterations from index `i` on:
```go
for i := range sli {
	beg := cur
	end := cur + size
	cur = end
	v := binary.BigEndian.UintN(sub[beg:end])
	sli[i] = conv(v)
}
```
The state is the destination slice, written in place. -/
def fillLoop {α : Type} (w : Width) (conv : Nat → α) (sub : List Byte) :
    Nat → Nat → Nat → List α → Exec (List α) Unit
  | 0, _, _, sli => .ret () sli
  | k + 1, i, cur, sli =>
    let beg := cur
    let end_ := cur + w.size
    match slice sub beg end_ with
    | none => .panic .outOfRange sli
    | some b =>
      match w.decode b with
      | none => .panic .outOfRange sli
      | some v => fillLoop w conv sub k (i + 1) end_ (sli.set i (conv v))

/-- The template of the generated array readers:
```go
func (r *RBuffer) ReadArrayT(sli []T) {
	if r.err != nil {
		return
	}
	n := len(sli)
	if n <= 0 || int64(n) > r.Len() {
		return
	}
	cur := r.r.c
	end := r.r.c + size*len(sli)
	sub := r.r.p[cur:end]
	cur = 0
	for i := range sli { ... }
	r.r.c = end
}
```
The state is the destination slice together with the buffer. -/
def readArrayT {α : Type} (w : Width) (conv : Nat → α) (sli : List α) (r : RBuffer) :
    Exec (List α × RBuffer) Unit :=
  if r.err ≠ none then .ret () (sli, r)
  else
    let n := sli.length
    if (n : Int) ≤ 0 ∨ (n : Int) > r.Len then .ret () (sli, r)
    else
      let cur := r.r.c
      let end_ := r.r.c + w.size * sli.length
      match slice r.r.p cur end_ with
      | none => .panic .outOfRange (sli, r)
      | some sub =>
        match fillLoop w conv sub sli.length 0 0 sli with
        | .panic pv sli1 => .panic pv (sli1, r)
        | .ret _ sli1 => .ret () (sli1, { r with r := { r.r with c := end_ } })

def ReadArrayU16 (sli : List Nat) (r : RBuffer) := readArrayT .w16 id sli r
def ReadArrayU32 (sli : List Nat) (r : RBuffer) := readArrayT .w32 id sli r
def ReadArrayU64 (sli : List Nat) (r : RBuffer) := readArrayT .w64 id sli r
def ReadArrayI16 (sli : List Int) (r : RBuffer) := readArrayT .w16 (toSigned 16) sli r
def ReadArrayI32 (sli : List Int) (r : RBuffer) := readArrayT .w32 (toSigned 32) sli r
def ReadArrayI64 (sli : List Int) (r : RBuffer) := readArrayT .w64 (toSigned 64) sli r
def ReadArrayF32 (sli : List float32) (r : RBuffer) := readArrayT .w32 Float32frombits sli r
def ReadArrayF64 (sli : List float64) (r : RBuffer) := readArrayT .w64 Float64frombits sli r

/-- The eight element types of the generated readers. -/
inductive ElemT where
  | U16 | U32 | U64 | I16 | I32 | I64 | F32 | F64
  deriving DecidableEq, Repr

/-- The Go type of an element, as embedded. -/
def ElemT.Go : ElemT → Type
  | .U16 => Nat
  | .U32 => Nat
  | .U64 => Nat
  | .I16 => Int
  | .I32 => Int
  | .I64 => Int
  | .F32 => float32
  | .F64 => float64

/-- The `encoding/binary` width of an element type. -/
def ElemT.width : ElemT → Width
  | .U16 => .w16
  | .U32 => .w32
  | .U64 => .w64
  | .I16 => .w16
  | .I32 => .w32
  | .I64 => .w64
  | .F32 => .w32
  | .F64 => .w64

/-- `sizeof(T)`. -/
def ElemT.size (T : ElemT) : Nat := T.width.size

/-- The value of type `T` that an unsigned big-endian word stands for: the
word itself, its two's complement reading, or the float with these bits. -/
def ElemT.ofWord : (T : ElemT) → Nat → T.Go
  | .U16 => id
  | .U32 => id
  | .U64 => id
  | .I16 => toSigned 16
  | .I32 => toSigned 32
  | .I64 => toSigned 64
  | .F32 => Float32frombits
  | .F64 => Float64frombits

/-- The Go zero value of an element type. -/
def ElemT.zero : (T : ElemT) → T.Go
  | .U16 => (0 : Nat)
  | .U32 => (0 : Nat)
  | .U64 => (0 : Nat)
  | .I16 => (0 : Int)
  | .I32 => (0 : Int)
  | .I64 => (0 : Int)
  | .F32 => (⟨0⟩ : float32)
  | .F64 => (⟨0⟩ : float64)

/-- The scalar reader `ReadT` of each element type. -/
def Read : (T : ElemT) → RBuffer → Exec RBuffer T.Go
  | .U16 => ReadU16
  | .U32 => ReadU32
  | .U64 => ReadU64
  | .I16 => ReadI16
  | .I32 => ReadI32
  | .I64 => ReadI64
  | .F32 => ReadF32
  | .F64 => ReadF64

/-- The array reader `ReadArrayT` of each element type. -/
def ReadArray : (T : ElemT) → List T.Go → RBuffer → Exec (List T.Go × RBuffer) Unit
  | .U16 => ReadArrayU16
  | .U32 => ReadArrayU32
  | .U64 => ReadArrayU64
  | .I16 => ReadArrayI16
  | .I32 => ReadArrayI32
  | .I64 => ReadArrayI64
  | .F32 => ReadArrayF32
  | .F64 => ReadArrayF64

/-- The unsigned reader of each width: `ReadU16`, `ReadU32`, `ReadU64`. -/
def ReadU : Width → RBuffer → Exec RBuffer Nat
  | .w16 => ReadU16
  | .w32 => ReadU32
  | .w64 => ReadU64



/-! ## The readers of `RBuffer` that `branch.go` calls and that are not in
`rbuffer_gen.go` -/

/-- A Go `string`: an immutable sequence of bytes. -/
abbrev GoString := List Byte

/-- Modelled from the spec: `RBuffer.ReadI8` is not in the sources at hand.
"read_u8 / read_i8 | 1 | unsigned/signed byte"; "any read that would exceed
sets the sticky error and leaves `c` unchanged"; on a buffer in error it
"returns zero values without advancing the cursor". -/
def ReadI8 (r : RBuffer) : Exec RBuffer Int :=
  if r.err ≠ none then .ret 0 r
  else
    match r.r.p[r.r.c]? with
    | none => .ret 0 { r with err := some (.Truncated 1 (r.r.p.length - r.r.c)) }
    | some x => .ret (toSigned 8 x.val) { r with r := { r.r with c := r.r.c + 1 } }

/-- Modelled from the spec: the fast-array readers `ReadFastArrayI32` and
`ReadFastArrayI64` are not in the sources at hand. "Fast array: exactly
`n × sizeof(T)` contiguous big-endian elements with no length prefix; the
length is supplied externally"; a read past the end sets `Truncated` and
leaves the cursor; on a buffer in error it returns the zero value (a nil
slice) and does nothing. `size` is `sizeof(T)`. -/
def readFastArray (size : Nat) (n : Int) (r : RBuffer) : Exec RBuffer (List Int) :=
  if r.err ≠ none then .ret [] r
  else if r.r.p.length < r.r.c + size * n.toNat then
    .ret [] { r with err := some (.Truncated (size * n.toNat) (r.r.p.length - r.r.c)) }
  else
    .ret ((List.range n.toNat).map fun i => toSigned (8 * size) (beNat r.r.p (r.r.c + size * i) size))
      { r with r := { r.r with c := r.r.c + size * n.toNat } }

def ReadFastArrayI32 (n : Int) (r : RBuffer) : Exec RBuffer (List Int) := readFastArray 4 n r
def ReadFastArrayI64 (n : Int) (r : RBuffer) : Exec RBuffer (List Int) := readFastArray 8 n r

/-- Modelled from the spec: `RBuffer.ReadString` is not in the sources at hand.
"String: `len:u8`; if `len == 0xFF` then `len:u32`; then `len` bytes, no
terminator"; a read past the end sets `Truncated` and leaves the cursor. -/
def ReadString (r : RBuffer) : Exec RBuffer GoString :=
  if r.err ≠ none then .ret [] r
  else
    let have_ := r.r.p.length - r.r.c
    match r.r.p[r.r.c]? with
    | none => .ret [] { r with err := some (.Truncated 1 have_) }
    | some x =>
      if x.val = 0xFF then
        if r.r.p.length < r.r.c + 5 then .ret [] { r with err := some (.Truncated 5 have_) }
        else
          let len := beNat r.r.p (r.r.c + 1) 4
          if r.r.p.length < r.r.c + 5 + len then
            .ret [] { r with err := some (.Truncated (5 + len) have_) }
          else
            .ret ((r.r.p.drop (r.r.c + 5)).take len)
              { r with r := { r.r with c := r.r.c + 5 + len } }
      else
        let len := x.val
        if r.r.p.length < r.r.c + 1 + len then
          .ret [] { r with err := some (.Truncated (1 + len) have_) }
        else
          .ret ((r.r.p.drop (r.r.c + 1)).take len)
            { r with r := { r.r with c := r.r.c + 1 + len } }

/-- Modelled from the spec: `RBuffer.ReadVersion` is not in the sources at
hand. "`read_version()` → `(version, start_pos, byte_count)`. Protocol: read a
u32 `raw`; if `raw & 0x40000000` is set, `byte_count = raw & 0x3FFFFFFF` and
`start_pos = cursor_before_u32 + 4`; then read `version: u16`. If the high bit
is not set, the stream is pre-byte-count and `byte_count = 0`." The two reads
are the `ReadU32` and `ReadU16` of `rbuffer_gen.go`; `start_pos` is the
position right after `raw` on both paths. The result is `(vers, pos, bcnt)`. -/
def ReadVersion (r : RBuffer) : Exec RBuffer (Nat × Int × Nat) :=
  if r.err ≠ none then .ret (0, 0, 0) r
  else
    let before := r.Pos
    match ReadU32 r with
    | .panic pv r1 => .panic pv r1
    | .ret raw r1 =>
      let bcnt := if raw &&& 0x40000000 ≠ 0 then raw &&& 0x3FFFFFFF else 0
      let pos := before + 4
      match ReadU16 r1 with
      | .panic pv r2 => .panic pv r2
      | .ret vers r2 => .ret (vers, pos, bcnt) r2

/-- Modelled from the spec: `RBuffer.CheckByteCount` is not in the sources at
hand. "`check_byte_count(start_pos, byte_count, beg_pos, context)` verifies
`cursor == start_pos + byte_count`. On mismatch it records
`ProtocolError{context, expected, actual}` into the sticky error." -/
def CheckByteCount (pos : Int) (bcnt : Nat) (_beg : Int) (context : String) (r : RBuffer) :
    Exec RBuffer Unit :=
  if r.err ≠ none then .ret () r
  else if r.Pos = pos + (bcnt : Int) then .ret () r
  else .ret () { r with err := some (.ProtocolError context (pos + (bcnt : Int)) r.Pos) }

/-! ## `branch.go` -/

/-- Modelled from the spec: the declaration of `tnamed` is not in the sources
at hand; "Named. `(name: string, title: string)`". -/
structure tnamed where
  name : GoString
  title : GoString
  deriving DecidableEq, Repr

/-- Modelled from the spec: the declaration of `attfill` is not in the sources
at hand; "AttFill. `(fill_color: i16, fill_style: i16)`". -/
structure attfill where
  color : Int
  style : Int
  deriving DecidableEq, Repr

/-- Modelled from the spec: the declaration of `Leaf` is not in the sources at
hand; the branch decoder stores leaves without looking into them, so a leaf
is an opaque value. -/
structure Leaf where
  id : Nat
  deriving DecidableEq, Repr

/-- The zero value of `Leaf` (the nil interface), the element
`make([]Leaf, n)` fills with. -/
def Leaf.zero : Leaf := ⟨0⟩

/-- Modelled from the spec: the declaration of `Basket` is not in the sources
at hand; "opaque to this spec". -/
structure Basket where
  id : Nat
  deriving DecidableEq, Repr

/-- The zero value of `Basket`, the element `make([]Basket, n)` fills with. -/
def Basket.zero : Basket := ⟨0⟩

/-- An opaque non-nil pointer or interface value (`*Basket`, `Tree`,
`*tbranch`, `*tdirectory`); Go `nil` is `none : Option Ref`. -/
structure Ref where
  addr : Nat
  deriving DecidableEq, Repr

/-- The struct `tbranch` of `branch.go`, field by field. -/
structure tbranch where
  named : tnamed
  attfill : attfill
  compress : Int
  basketSize : Int
  entryOffsetLen : Int
  writeBasket : Int
  entryNumber : Int
  offset : Int
  maxBaskets : Int
  splitLevel : Int
  entries : Int
  firstEntry : Int
  totBytes : Int
  zipBytes : Int
  branches : List tbranch
  leaves : List Leaf
  baskets : List Basket
  basketBytes : List Int
  basketEntry : List Int
  basketSeek : List Int
  fname : GoString
  readbasket : Int
  readentry : Int
  firstbasket : Int
  nextbasket : Int
  currbasket : Option Ref
  tree : Option Ref
  mother : Option Ref
  parent : Option Ref
  dir : Option Ref

/-- The Go zero value of `tbranch`, the element `make([]tbranch, n)` fills with. -/
def tbranch.zero : tbranch :=
  { named := ⟨[], []⟩, attfill := ⟨0, 0⟩, compress := 0, basketSize := 0, entryOffsetLen := 0,
    writeBasket := 0, entryNumber := 0, offset := 0, maxBaskets := 0, splitLevel := 0,
    entries := 0, firstEntry := 0, totBytes := 0, zipBytes := 0, branches := [], leaves := [],
    baskets := [], basketBytes := [], basketEntry := [], basketSeek := [], fname := [],
    readbasket := 0, readentry := 0, firstbasket := 0, nextbasket := 0, currbasket := none,
    tree := none, mother := none, parent := none, dir := none }

/-- A value of the interface `Object` as an object array holds it: a
`*tbranch`, a `Leaf`, a `*Basket`, or something of another class. -/
inductive Object where
  | branch (b : tbranch)
  | leaf (l : Leaf)
  | basket (k : Basket)
  | other (cls : String)

/-- Modelled from the spec: the declaration of `objarray` is not in the sources
at hand; "ObjArray. An ordered sequence of polymorphic elements with `name,
low, last` header fields". Only `last` and the elements are used by
`branch.go`. -/
structure objarray where
  last : Int
  arr : List Object

/-- The Go zero value of `objarray` (`var branches objarray`). -/
def objarray.zero : objarray := { last := 0, arr := [] }

/-- Modelled from the spec: `objarray.At` is not in the sources at hand; the
`i`-th element of the sequence, `none` standing for the index-out-of-range
panic. -/
def objarray.At (a : objarray) (i : Nat) : Option Object := a.arr[i]?

/-- The type assertion `.(*tbranch)` followed by the dereference `*br`. -/
def Object.toBranch : Object → Option tbranch
  | .branch b => some b
  | _ => none

/-- The type assertion `.(Leaf)`. -/
def Object.toLeaf : Object → Option Leaf
  | .leaf l => some l
  | _ => none

/-- The type assertion `.(*Basket)` followed by the dereference `*bk`. -/
def Object.toBasket : Object → Option Basket
  | .basket k => some k
  | _ => none

/-- The decoders `branch.go` calls and whose code is not in the sources at
hand: `tnamed.UnmarshalROOT`, `attfill.UnmarshalROOT` and
`objarray.UnmarshalROOT`. Each takes the receiver and the buffer and returns
an `error`; they are left open. -/
structure Decoders where
  named : tnamed → RBuffer → Exec (tnamed × RBuffer) (Option Error)
  attfill : attfill → RBuffer → Exec (attfill × RBuffer) (Option Error)
  objarray : objarray → RBuffer → Exec (objarray × RBuffer) (Option Error)

/-- Go `make([]T, n)`: `none` is the panic on a negative length. -/
def make {α : Type} (zero : α) (n : Int) : Option (List α) :=
  if n < 0 then none else some (List.replicate n.toNat zero)

/-- Go `copy(dst, src)`: the first `min(len(dst), len(src))` elements of `dst`
are overwritten, its length stays. -/
def copy {α : Type} (dst src : List α) : List α :=
  src.take dst.length ++ dst.drop src.length

/-- The loop that moves the elements of a decoded object array into the branch,
`k` iterations from index `i` on, `assert` being the type assertion:
```go
for i := range b.branches {
	br := branches.At(i).(*tbranch)
	b.branches[i] = *br
}
``` -/
def copyLoop {α : Type} (assert : Object → Option α) (arr : objarray) :
    Nat → Nat → List α → Exec (List α) Unit
  | 0, _, l => .ret () l
  | k + 1, i, l =>
    match arr.At i with
    | none => .panic .outOfRange l
    | some o =>
      match assert o with
      | none => .panic .typeAssertion l
      | some v => copyLoop assert arr k (i + 1) (l.set i v)

/-- Lines 84–90 of `branch.go`: the `TNamed` and `TAttFill` preambles. A result
`some err` is the early `return err`. -/
def readPreamble (d : Decoders) (b : tbranch) (r : RBuffer) :
    Exec (tbranch × RBuffer) (Option Error) :=
  match d.named b.named r with
  | .panic pv (nm, r) => .panic pv ({ b with named := nm }, r)
  | .ret (some err) (nm, r) => .ret (some err) ({ b with named := nm }, r)
  | .ret none (nm, r) =>
    let b := { b with named := nm }
    match d.attfill b.attfill r with
    | .panic pv (af, r) => .panic pv ({ b with attfill := af }, r)
    | .ret (some err) (af, r) => .ret (some err) ({ b with attfill := af }, r)
    | .ret none (af, r) => .ret none ({ b with attfill := af }, r)

/-- Lines 92–103 of `branch.go`: the fixed scalar block. -/
def readScalars (b : tbranch) (r : RBuffer) : Exec (tbranch × RBuffer) Unit :=
  match ReadI32 r with
  | .panic pv r => .panic pv (b, r)
  | .ret v r =>
  let b := { b with compress := v }
  match ReadI32 r with
  | .panic pv r => .panic pv (b, r)
  | .ret v r =>
  let b := { b with basketSize := v }
  match ReadI32 r with
  | .panic pv r => .panic pv (b, r)
  | .ret v r =>
  let b := { b with entryOffsetLen := v }
  match ReadI32 r with
  | .panic pv r => .panic pv (b, r)
  | .ret v r =>
  let b := { b with writeBasket := v }
  match ReadI64 r with
  | .panic pv r => .panic pv (b, r)
  | .ret v r =>
  let b := { b with entryNumber := v }
  match ReadI32 r with
  | .panic pv r => .panic pv (b, r)
  | .ret v r =>
  let b := { b with offset := v }
  match ReadI32 r with
  | .panic pv r => .panic pv (b, r)
  | .ret v r =>
  let b := { b with maxBaskets := v }
  match ReadI32 r with
  | .panic pv r => .panic pv (b, r)
  | .ret v r =>
  let b := { b with splitLevel := v }
  match ReadI64 r with
  | .panic pv r => .panic pv (b, r)
  | .ret v r =>
  let b := { b with entries := v }
  match ReadI64 r with
  | .panic pv r => .panic pv (b, r)
  | .ret v r =>
  let b := { b with firstEntry := v }
  match ReadI64 r with
  | .panic pv r => .panic pv (b, r)
  | .ret v r =>
  let b := { b with totBytes := v }
  match ReadI64 r with
  | .panic pv r => .panic pv (b, r)
  | .ret v r =>
  let b := { b with zipBytes := v }
  .ret () (b, r)

/-- Lines 105–116 of `branch.go`: the object array of sub-branches.
```go
var branches objarray
if err := branches.UnmarshalROOT(r); err != nil {
	r.err = err
	return r.err
}
b.branches = make([]tbranch, branches.last+1)
for i := range b.branches { ... }
``` -/
def readBranches (d : Decoders) (b : tbranch) (r : RBuffer) :
    Exec (tbranch × RBuffer) (Option Error) :=
  match d.objarray objarray.zero r with
  | .panic pv (_, r) => .panic pv (b, r)
  | .ret (some err) (_, r) =>
    let r := { r with err := some err }
    .ret r.err (b, r)
  | .ret none (branches, r) =>
    match make tbranch.zero (branches.last + 1) with
    | none => .panic .makeNegative (b, r)
    | some l =>
      let b := { b with branches := l }
      match copyLoop Object.toBranch branches b.branches.length 0 b.branches with
      | .panic pv l => .panic pv ({ b with branches := l }, r)
      | .ret _ l => .ret none ({ b with branches := l }, r)

/-- Lines 118–129 of `branch.go`: the object array of leaves. -/
def readLeaves (d : Decoders) (b : tbranch) (r : RBuffer) :
    Exec (tbranch × RBuffer) (Option Error) :=
  match d.objarray objarray.zero r with
  | .panic pv (_, r) => .panic pv (b, r)
  | .ret (some err) (_, r) =>
    let r := { r with err := some err }
    .ret r.err (b, r)
  | .ret none (leaves, r) =>
    match make Leaf.zero (leaves.last + 1) with
    | none => .panic .makeNegative (b, r)
    | some l =>
      let b := { b with leaves := l }
      match copyLoop Object.toLeaf leaves b.leaves.length 0 b.leaves with
      | .panic pv l => .panic pv ({ b with leaves := l }, r)
      | .ret _ l => .ret none ({ b with leaves := l }, r)

/-- Lines 130–141 of `branch.go`: the object array of baskets. -/
def readBaskets (d : Decoders) (b : tbranch) (r : RBuffer) :
    Exec (tbranch × RBuffer) (Option Error) :=
  match d.objarray objarray.zero r with
  | .panic pv (_, r) => .panic pv (b, r)
  | .ret (some err) (_, r) =>
    let r := { r with err := some err }
    .ret r.err (b, r)
  | .ret none (baskets, r) =>
    match make Basket.zero (baskets.last + 1) with
    | none => .panic .makeNegative (b, r)
    | some l =>
      let b := { b with baskets := l }
      match copyLoop Object.toBasket baskets b.baskets.length 0 b.baskets with
      | .panic pv l => .panic pv ({ b with baskets := l }, r)
      | .ret _ l => .ret none ({ b with baskets := l }, r)

/-- Lines 105–141 of `branch.go`: the three object arrays in order. A result
`some err` is the early `return r.err`. -/
def readObjArrays (d : Decoders) (b : tbranch) (r : RBuffer) :
    Exec (tbranch × RBuffer) (Option Error) :=
  match readBranches d b r with
  | .panic pv s => .panic pv s
  | .ret (some err) s => .ret (some err) s
  | .ret none (b, r) =>
    match readLeaves d b r with
    | .panic pv s => .panic pv s
    | .ret (some err) s => .ret (some err) s
    | .ret none (b, r) => readBaskets d b r

/-- Lines 143–156 of `branch.go`: the three basket tables and `fname`.
```go
b.basketBytes = make([]int32, b.maxBaskets)
b.basketEntry = make([]int64, b.maxBaskets)
b.basketSeek = make([]int64, b.maxBaskets)

/*isArray*/ _ = r.ReadI8()
copy(b.basketBytes, r.ReadFastArrayI32(b.maxBaskets))

/*isArray*/ _ = r.ReadI8()
_ = r.ReadFastArrayI64(b.maxBaskets)

/*isArray*/ _ = r.ReadI8()
copy(b.basketSeek, r.ReadFastArrayI64(b.maxBaskets))

b.fname = r.ReadString()
``` -/
def readTables (b : tbranch) (r : RBuffer) : Exec (tbranch × RBuffer) Unit :=
  match make (0 : Int) b.maxBaskets with
  | none => .panic .makeNegative (b, r)
  | some l =>
  let b := { b with basketBytes := l }
  match make (0 : Int) b.maxBaskets with
  | none => .panic .makeNegative (b, r)
  | some l =>
  let b := { b with basketEntry := l }
  match make (0 : Int) b.maxBaskets with
  | none => .panic .makeNegative (b, r)
  | some l =>
  let b := { b with basketSeek := l }
  match ReadI8 r with
  | .panic pv r => .panic pv (b, r)
  | .ret _ r =>
  match ReadFastArrayI32 b.maxBaskets r with
  | .panic pv r => .panic pv (b, r)
  | .ret src r =>
  let b := { b with basketBytes := copy b.basketBytes src }
  match ReadI8 r with
  | .panic pv r => .panic pv (b, r)
  | .ret _ r =>
  match ReadFastArrayI64 b.maxBaskets r with
  | .panic pv r => .panic pv (b, r)
  | .ret _ r =>
  match ReadI8 r with
  | .panic pv r => .panic pv (b, r)
  | .ret _ r =>
  match ReadFastArrayI64 b.maxBaskets r with
  | .panic pv r => .panic pv (b, r)
  | .ret src r =>
  let b := { b with basketSeek := copy b.basketSeek src }
  match ReadString r with
  | .panic pv r => .panic pv (b, r)
  | .ret s r =>
  let b := { b with fname := s }
  .ret () (b, r)

/-- Lines 158–164 of `branch.go`:
```go
r.CheckByteCount(pos, bcnt, beg, "TBranch")

if b.splitLevel == 0 && len(b.branches) > 0 {
	b.splitLevel = 1
}

return r.Err()
``` -/
def finish (pos : Int) (bcnt : Nat) (beg : Int) (b : tbranch) (r : RBuffer) :
    Exec (tbranch × RBuffer) (Option Error) :=
  match CheckByteCount pos bcnt beg "TBranch" r with
  | .panic pv r => .panic pv (b, r)
  | .ret _ r =>
    let b := if b.splitLevel = 0 ∧ b.branches.length > 0 then { b with splitLevel := 1 } else b
    .ret r.Err (b, r)

/-- Lines 105–164 of `branch.go`: everything after the fixed scalar block. -/
def decodeRest (d : Decoders) (pos : Int) (bcnt : Nat) (beg : Int) (b : tbranch)
    (r : RBuffer) : Exec (tbranch × RBuffer) (Option Error) :=
  match readObjArrays d b r with
  | .panic pv s => .panic pv s
  | .ret (some err) s => .ret (some err) s
  | .ret none (b, r) =>
    match readTables b r with
    | .panic pv s => .panic pv s
    | .ret _ (b, r) => finish pos bcnt beg b r

/-- `func (b *tbranch) UnmarshalROOT(r *RBuffer) error` of `branch.go`. The
state is the receiver `*b` together with the buffer `*r`; the value is the
returned `error`.
```go
if r.Err() != nil {
	return r.Err()
}

beg := r.Pos()
vers, pos, bcnt := r.ReadVersion()

b.tree = nil
b.currbasket = nil
b.firstbasket = -1
b.nextbasket = -1

if vers < 12 {
	panic(fmt.Errorf("rootio: too old TBanch version (%d<12)", vers))
}
...
``` -/
def UnmarshalROOT (d : Decoders) (b : tbranch) (r : RBuffer) :
    Exec (tbranch × RBuffer) (Option Error) :=
  if r.Err ≠ none then .ret r.Err (b, r)
  else
    let beg := r.Pos
    match ReadVersion r with
    | .panic pv r => .panic pv (b, r)
    | .ret (vers, pos, bcnt) r =>
      let b := { b with tree := none, currbasket := none, firstbasket := -1, nextbasket := -1 }
      if vers < 12 then .panic (.tooOldVersion vers) (b, r)
      else
        match readPreamble d b r with
        | .panic pv s => .panic pv s
        | .ret (some err) s => .ret (some err) s
        | .ret none (b, r) =>
          match readScalars b r with
          | .panic pv s => .panic pv s
          | .ret _ (b, r) => decodeRest d pos bcnt beg b r

/-! ## A concrete set of decoders

The theorems about `UnmarshalROOT` hold for every `Decoders`. To run the
decoder on concrete payloads a small instance is fixed here. It is not the
ROOT wire format of `TNamed`, `TAttFill` and `TObjArray` (their decoders are
not in the sources at hand): a name is two strings, a fill attribute two
`i16`, and an object array is its `last` field (`i32`) followed by one tag
byte per element (`0` a zero-valued branch, `1` a leaf, `2` a basket, anything
else an unknown class). -/

/-- Sample decoder of the `TNamed` preamble: `name`, then `title`. -/
def sampleNamed (n : tnamed) (r : RBuffer) : Exec (tnamed × RBuffer) (Option Error) :=
  match ReadString r with
  | .panic pv r => .panic pv (n, r)
  | .ret name r =>
    match ReadString r with
    | .panic pv r => .panic pv ({ n with name := name }, r)
    | .ret title r => .ret r.err ({ name := name, title := title }, r)

/-- Sample decoder of the `TAttFill` preamble: `color`, then `style`. -/
def sampleAttfill (a : attfill) (r : RBuffer) : Exec (attfill × RBuffer) (Option Error) :=
  match ReadI16 r with
  | .panic pv r => .panic pv (a, r)
  | .ret color r =>
    match ReadI16 r with
    | .panic pv r => .panic pv ({ a with color := color }, r)
    | .ret style r => .ret r.err ({ color := color, style := style }, r)

/-- Sample decoder of the elements of an object array: `k` tag bytes. -/
def sampleElements : Nat → List Object → RBuffer → Exec (List Object × RBuffer) Unit
  | 0, acc, r => .ret () (acc, r)
  | k + 1, acc, r =>
    match ReadI8 r with
    | .panic pv r => .panic pv (acc, r)
    | .ret tag r =>
      if r.err ≠ none then .ret () (acc, r)
      else if tag = 0 then sampleElements k (acc ++ [.branch tbranch.zero]) r
      else if tag = 1 then sampleElements k (acc ++ [.leaf ⟨k⟩]) r
      else if tag = 2 then sampleElements k (acc ++ [.basket ⟨k⟩]) r
      else .ret () (acc, { r with err := some (.UnknownClass "TUnknown") })

/-- Sample decoder of an object array: `last`, then `last + 1` elements. -/
def sampleObjarray (a : objarray) (r : RBuffer) : Exec (objarray × RBuffer) (Option Error) :=
  match ReadI32 r with
  | .panic pv r => .panic pv (a, r)
  | .ret last r =>
    match sampleElements (last + 1).toNat [] r with
    | .panic pv (arr, r) => .panic pv ({ last := last, arr := arr }, r)
    | .ret _ (arr, r) => .ret r.err ({ last := last, arr := arr }, r)

/-- The sample decoders together. -/
def sampleDecoders : Decoders :=
  { named := sampleNamed, attfill := sampleAttfill, objarray := sampleObjarray }

/-- A minimal payload for the sample decoders: class header with byte count 114
and version 12, name `"px"`, empty title, zero fill attribute, a scalar block
that is all zero but for `maxBaskets = 1`, three empty object arrays
(`last = -1`), the three basket tables of one entry each (`basketBytes = [100]`,
`basketEntry = [7]`, `basketSeek = [0x1000]`), and an empty `fname`. -/
def samplePayload : List Byte :=
  [0x40, 0, 0, 114, 0, 12] ++
  [2, 0x70, 0x78, 0] ++
  [0, 0, 0, 0] ++
  [0, 0, 0, 0, 0, 0, 0, 0, 0, 0, 0, 0, 0, 0, 0, 0] ++
  [0, 0, 0, 0, 0, 0, 0, 0] ++
  [0, 0, 0, 0, 0, 0, 0, 1, 0, 0, 0, 0] ++
  [0, 0, 0, 0, 0, 0, 0, 0, 0, 0, 0, 0, 0, 0, 0, 0] ++
  [0, 0, 0, 0, 0, 0, 0, 0, 0, 0, 0, 0, 0, 0, 0, 0] ++
  [0xFF, 0xFF, 0xFF, 0xFF, 0xFF, 0xFF, 0xFF, 0xFF, 0xFF, 0xFF, 0xFF, 0xFF] ++
  [1, 0, 0, 0, 100] ++
  [1, 0, 0, 0, 0, 0, 0, 0, 7] ++
  [1, 0, 0, 0, 0, 0, 0, 0x10, 0] ++
  [0]

/-- Modelled from the spec: the byte cursor has "a monotonically advancing
position"; for the decoders whose code is not in the sources at hand this
reads: a decoder that returns has not moved the cursor backwards. -/
def Decoders.Advancing (d : Decoders) : Prop :=
  (∀ n r v n1 r1, d.named n r = .ret v (n1, r1) → r.r.c ≤ r1.r.c)
    ∧ (∀ a r v a1 r1, d.attfill a r = .ret v (a1, r1) → r.r.c ≤ r1.r.c)
    ∧ (∀ a r v a1 r1, d.objarray a r = .ret v (a1, r1) → r.r.c ≤ r1.r.c)

/-! ## Relating the readers to one another -/

/-- The outcome of an execution with a conversion applied to the returned
value; a panic stays the same panic. -/
def Exec.map {σ α β : Type} (f : α → β) : Exec σ α → Exec σ β
  | .ret v s => .ret (f v) s
  | .panic pv s => .panic pv s

/-- The loop `for i := range dst { dst[i] = r.ReadT() }`, `k` iterations from
index `i` on: the element-by-element reading that `ReadArrayT` is compared
with. The state is the destination slice together with the buffer. -/
def scalarLoop (T : ElemT) : Nat → Nat → List T.Go → RBuffer → Exec (List T.Go × RBuffer) Unit
  | 0, _, dst, r => .ret () (dst, r)
  | k + 1, i, dst, r =>
    match Read T r with
    | .panic pv r1 => .panic pv (dst, r1)
    | .ret v r1 => scalarLoop T k (i + 1) (dst.set i v) r1

/-- The basket-table region of scenario S2 of the specification for
`maxBaskets = 2`: the three marker bytes `m1`, `m2`, `m3`, each followed by its
table (`basketBytes = [100, 200]`, `basketEntry = [5, 9]`,
`basketSeek = [0x1000, 0x2000]`), and an empty `fname`. -/
def tablesRegion (m1 m2 m3 : Byte) : List Byte :=
  [m1, 0, 0, 0, 100, 0, 0, 0, 200,
   m2, 0, 0, 0, 0, 0, 0, 0, 5, 0, 0, 0, 0, 0, 0, 0, 9,
   m3, 0, 0, 0, 0, 0, 0, 0x10, 0, 0, 0, 0, 0, 0, 0, 0x20, 0,
   0]

/-- The fields of lines 37–46 of `branch.go`, which hold no decoded data: the
transient read state (`readbasket`, `readentry`, `firstbasket`, `nextbasket`,
`currbasket`), `tree`, and the back pointers `mother`, `parent`, `dir`. -/
def tbranch.readState (b : tbranch) :
    Int × Int × Int × Int × Option Ref × Option Ref × Option Ref × Option Ref × Option Ref :=
  (b.readbasket, b.readentry, b.firstbasket, b.nextbasket, b.currbasket, b.tree, b.mother,
    b.parent, b.dir)

/-- The sample payload with one child branch: as `samplePayload`, but the first
object array has `last = 0` and one element with tag `0` (a zero-valued
branch), and the byte count is 115. -/
def sampleParentPayload : List Byte :=
  [0x40, 0, 0, 115, 0, 12] ++ (samplePayload.drop 6).take 76 ++ [0, 0, 0, 0, 0]
    ++ samplePayload.drop 86

/-- The sample payload with an object array of an unknown class: as
`samplePayload` up to the scalar block, then a first object array with
`last = 0` and one element with tag `9`. -/
def sampleBadArrayPayload : List Byte :=
  samplePayload.take 82 ++ [0, 0, 0, 0, 9]

/-- The sample payload with a first object array whose `last` is `-2`. -/
def sampleNegativeLastPayload : List Byte :=
  samplePayload.take 82 ++ [0xFF, 0xFF, 0xFF, 0xFE] ++ samplePayload.drop 86

/-! ## `energy_smearing.go`

`EnergySmearing.Process` is embedded over the interfaces it uses and whose
code is not in the sources at hand: the event store of the framework (`Get`,
`Put`), the methods of `Candidate` and of its four-momenta, the `math`
functions and `random.Gauss`. They are left open in `FadsEnv`; none of them is
taken to panic. The logging calls `msg.Debugf` have no effect on the result
and are left out. The only floating-point operation whose result is looked at
is the comparison `ene <= 0`, which is defined on the IEEE-754 bits. -/

/-- The sign bit of a `float64`. -/
def float64.sign (x : float64) : Nat := x.bits / 2 ^ 63 % 2

/-- The eleven exponent bits of a `float64`. -/
def float64.exponent (x : float64) : Nat := x.bits / 2 ^ 52 % 2 ^ 11

/-- The fifty-two fraction bits of a `float64`. -/
def float64.fraction (x : float64) : Nat := x.bits % 2 ^ 52

/-- IEEE-754: a NaN has all exponent bits set and a non-zero fraction. -/
def float64.isNaN (x : float64) : Bool := x.exponent = 2047 ∧ x.fraction ≠ 0

/-- IEEE-754: `+0` and `-0`. -/
def float64.isZero (x : float64) : Bool := x.exponent = 0 ∧ x.fraction = 0

/-- Go `x <= 0` on a `float64`: false for a NaN, true for the zeros and for
every value with the sign bit set. -/
def float64.leZero (x : float64) : Bool := !x.isNaN && (x.sign = 1 || x.isZero)

/-- Go `x > 0` on a `float64`: false for a NaN and for the zeros, true for every
other value with the sign bit clear. -/
def float64.gtZero (x : float64) : Bool := !x.isNaN && x.sign = 0 && !x.isZero

/-- A value of `fwk.Error` (a Go `error`); `none : Option FwkError` is nil. -/
structure FwkError where
  msg : String
  deriving DecidableEq, Repr

/-- The `interface{}` that `store.Get` hands out: a `[]Candidate`, or a value of
any other dynamic type. -/
inductive StoreValue (Cand : Type) where
  | candidates (l : List Cand)
  | other

/-- The operations `Process` calls and whose code is not in the sources at
hand, over the types `Cand` (`Candidate`), `P4` (`fmom.P4`), `Src`
(`rand.Source`) and `Store` (`fwk.Store`). `Gauss mean sigma src` is one draw
of `random.Gauss(mean, sigma, &src)()`: the sample and the source after it. -/
structure FadsEnv (Cand P4 Src Store : Type) where
  Get : Store → String → StoreValue Cand × Option FwkError
  Put : Store → String → List Cand → Store × Option FwkError
  PosEta : Cand → float64
  PosPhi : Cand → float64
  MomE : Cand → float64
  MomEta : Cand → float64
  MomPhi : Cand → float64
  Clone : Cand → Cand
  setMom : Cand → P4 → Cand
  Add : Cand → Cand → Cand
  NewPxPyPzE : float64 → float64 → float64 → float64 → P4
  Gauss : float64 → float64 → Src → float64 × Src
  Cosh : float64 → float64
  Cos : float64 → float64
  Sin : float64 → float64
  Sinh : float64 → float64
  div : float64 → float64 → float64
  mul : float64 → float64 → float64

/-- The fields of the struct `EnergySmearing` that `Process` uses. -/
structure EnergySmearing (Src : Type) where
  input : String
  output : String
  smear : float64 → float64 → float64
  seed : Int
  src : Src

/-- Lines 84–95 of `energy_smearing.go`: the candidate appended for the input
candidate `cand` and the smeared energy `ene`.
```go
mother := cand
c := cand.Clone()
eta = cand.Mom.Eta()
phi = cand.Mom.Phi()
pt := ene / math.Cosh(eta)

pxs := pt * math.Cos(phi)
pys := pt * math.Sin(phi)
pzs := pt * math.Sinh(eta)

c.Mom = fmom.NewPxPyPzE(pxs, pys, pzs, ene)
c.Add(mother)
``` -/
def smearedCandidate {Cand P4 Src Store : Type} (env : FadsEnv Cand P4 Src Store)
    (cand : Cand) (ene : float64) : Cand :=
  let mother := cand
  let c := env.Clone cand
  let eta := env.MomEta cand
  let phi := env.MomPhi cand
  let pt := env.div ene (env.Cosh eta)
  let pxs := env.mul pt (env.Cos phi)
  let pys := env.mul pt (env.Sin phi)
  let pzs := env.mul pt (env.Sinh eta)
  let c := env.setMom c (env.NewPxPyPzE pxs pys pzs ene)
  env.Add c mother

/-- Lines 70–98 of `energy_smearing.go`: the loop over the input candidates,
from the candidates still to visit, the random source and the `output` built
so far to the final `output` and source.
```go
for i := range input {
	cand := &input[i]
	eta := cand.Pos.Eta()
	phi := cand.Pos.Phi()
	ene := cand.Mom.E()

	// apply smearing
	smearEne := random.Gauss(ene, tsk.smear(eta, ene), &tsk.src)
	ene = smearEne()

	if ene <= 0 {
		continue
	}
	...
	output = append(output, *c)
}
``` -/
def smearLoop {Cand P4 Src Store : Type} (env : FadsEnv Cand P4 Src Store)
    (smear : float64 → float64 → float64) : List Cand → Src → List Cand → List Cand × Src
  | [], src, output => (output, src)
  | cand :: rest, src, output =>
    let eta := env.PosEta cand
    let _phi := env.PosPhi cand
    let ene := env.MomE cand
    let smeared := env.Gauss ene (smear eta ene) src
    let ene := smeared.1
    if ene.leZero then smearLoop env smear rest smeared.2 output
    else smearLoop env smear rest smeared.2 (output ++ [smearedCandidate env cand ene])

/-- `func (tsk *EnergySmearing) Process(ctx fwk.Context) fwk.Error`. The state is
the store of the context together with the task; the value is the returned
error. The function result is not a named result, so `return err` fixes the
returned value before the deferred function runs, and the assignment
`err = store.Put(tsk.output, output)` of the deferred function changes the
local variable `err` only.
```go
var err fwk.Error
store := ctx.Store()
msg := ctx.Msg()

v, err := store.Get(tsk.input)
if err != nil {
	return err
}

input := v.([]Candidate)
output := make([]Candidate, 0, len(input))
defer func() {
	err = store.Put(tsk.output, output)
}()

for i := range input { ... }

return err
``` -/
def Process {Cand P4 Src Store : Type} (env : FadsEnv Cand P4 Src Store)
    (tsk : EnergySmearing Src) (store : Store) :
    Exec (Store × EnergySmearing Src) (Option FwkError) :=
  let got := env.Get store tsk.input
  let v := got.1
  let err := got.2
  if err ≠ none then .ret err (store, tsk)
  else
    match v with
    | .other => .panic .typeAssertion (store, tsk)
    | .candidates input =>
      let looped := smearLoop env tsk.smear input tsk.src []
      let output := looped.1
      let tsk := { tsk with src := looped.2 }
      -- `return err`: the returned value is the current value of `err`
      let result := err
      -- the deferred function: `err = store.Put(tsk.output, output)`
      let put := env.Put store tsk.output output
      let store := put.1
      let _err := put.2
      .ret result (store, tsk)

/-- The smeared energy drawn for each input candidate, in input order: the
value of `ene` after `ene = smearEne()` in each iteration of the loop. -/
def smearedEnergies {Cand P4 Src Store : Type} (env : FadsEnv Cand P4 Src Store)
    (smear : float64 → float64 → float64) : List Cand → Src → List float64
  | [], _ => []
  | cand :: rest, src =>
    let smeared := env.Gauss (env.MomE cand) (smear (env.PosEta cand) (env.MomE cand)) src
    smeared.1 :: smearedEnergies env smear rest smeared.2

/-- A concrete environment to run `Process` in: a candidate is its energy, the
store maps a key to a list of candidates, `Get` fails on the key `"missing"`,
`Put` stores the value and returns an error when the key is `"readonly"`, and
`Gauss` returns its mean. -/
def sampleEnv : FadsEnv float64 float64 Nat (String → List float64) where
  Get := fun s k =>
    if k = "missing" then (.other, some ⟨"no such key"⟩) else (.candidates (s k), none)
  Put := fun s k v =>
    (fun k1 => if k1 = k then v else s k1, if k = "readonly" then some ⟨"read-only key"⟩ else none)
  PosEta := id
  PosPhi := id
  MomE := id
  MomEta := id
  MomPhi := id
  Clone := id
  setMom := fun _ p => p
  Add := fun c _ => c
  NewPxPyPzE := fun _ _ _ e => e
  Gauss := fun mean _ src => (mean, src + 1)
  Cosh := id
  Cos := id
  Sin := id
  Sinh := id
  div := fun a _ => a
  mul := fun a _ => a

/-- A task for `sampleEnv`, reading `"in"` and writing `"readonly"`. -/
def sampleTask : EnergySmearing Nat :=
  { input := "in", output := "readonly", smear := fun _ _ => ⟨0⟩, seed := 1234, src := 0 }

/-- A store for `sampleEnv`: under `"in"` the energies `1.0`, `-1.0`, `+0`, a
NaN and `2.0`. -/
def sampleStore : String → List float64 := fun k =>
  if k = "in" then
    [⟨0x3FF0000000000000⟩, ⟨0xBFF0000000000000⟩, ⟨0⟩, ⟨0x7FF8000000000000⟩,
      ⟨0x4000000000000000⟩]
  else []
/-! ## Lemmas on the byte decoders -/

theorem lor_shiftLeft_of_lt (x a i : Nat) (hx : x < 2 ^ i) :
    x ||| (a <<< i) = a * 2 ^ i + x := by
  rw [Nat.shiftLeft_eq, Nat.lor_comm, Nat.mul_comm a, ← Nat.mul_add_lt_is_or hx]

theorem decode_take (w : Width) (q : List Byte) (h : w.size ≤ q.length) :
    w.decode (q.take w.size) = some (beNat q 0 w.size) := by
  cases w
  · match q, h with
    | b0 :: b1 :: _, _ =>
      have h0 := b0.isLt
      have h1 := b1.isLt
      simp only [Width.decode, Width.size, List.take_succ_cons, Uint16, beNat,
        Finset.sum_range_succ, Finset.sum_range_zero, Option.some.injEq]
      rw [lor_shiftLeft_of_lt _ _ _ (by omega)]
      simp
  · match q, h with
    | b0 :: b1 :: b2 :: b3 :: _, _ =>
      have h0 := b0.isLt
      have h1 := b1.isLt
      have h2 := b2.isLt
      have h3 := b3.isLt
      simp only [Width.decode, Width.size, List.take_succ_cons, Uint32, beNat,
        Finset.sum_range_succ, Finset.sum_range_zero, Option.some.injEq]
      rw [lor_shiftLeft_of_lt b3.val b2.val 8 (by omega),
        lor_shiftLeft_of_lt _ b1.val 16 (by omega),
        lor_shiftLeft_of_lt _ b0.val 24 (by omega)]
      simp
      omega
  · match q, h with
    | b0 :: b1 :: b2 :: b3 :: b4 :: b5 :: b6 :: b7 :: _, _ =>
      have h0 := b0.isLt
      have h1 := b1.isLt
      have h2 := b2.isLt
      have h3 := b3.isLt
      have h4 := b4.isLt
      have h5 := b5.isLt
      have h6 := b6.isLt
      have h7 := b7.isLt
      simp only [Width.decode, Width.size, List.take_succ_cons, Uint64, beNat,
        Finset.sum_range_succ, Finset.sum_range_zero, Option.some.injEq]
      rw [lor_shiftLeft_of_lt b7.val b6.val 8 (by omega),
        lor_shiftLeft_of_lt _ b5.val 16 (by omega),
        lor_shiftLeft_of_lt _ b4.val 24 (by omega),
        lor_shiftLeft_of_lt _ b3.val 32 (by omega),
        lor_shiftLeft_of_lt _ b2.val 40 (by omega),
        lor_shiftLeft_of_lt _ b1.val 48 (by omega),
        lor_shiftLeft_of_lt _ b0.val 56 (by omega)]
      simp
      omega


theorem beNat_drop (p : List Byte) (c w : Nat) : beNat (p.drop c) 0 w = beNat p c w := by
  unfold beNat
  refine Finset.sum_congr rfl fun i _ => ?_
  simp [List.getD_eq_getElem?_getD, List.getElem?_drop]

theorem slice_ok (p : List Byte) (c n : Nat) (h : c + n ≤ p.length) :
    slice p c (c + n) = some ((p.drop c).take n) := by
  unfold slice
  rw [if_pos ⟨Nat.le_add_right c n, h⟩, Nat.add_sub_cancel_left]

theorem slice_short (p : List Byte) (lo hi : Nat) (h : p.length < hi) :
    slice p lo hi = none := by
  unfold slice
  rw [if_neg]
  omega

/-- A scalar read with enough bytes: big-endian value, cursor advanced. -/
theorem readT_ok {α : Type} (w : Width) (conv : Nat → α) (zero : α) (r : RBuffer)
    (herr : r.err = none) (hlen : r.r.c + w.size ≤ r.r.p.length) :
    readT w conv zero r =
      .ret (conv (beNat r.r.p r.r.c w.size))
        { r := { p := r.r.p, c := r.r.c + w.size }, err := r.err } := by
  have hd : w.decode ((r.r.p.drop r.r.c).take w.size) = some (beNat r.r.p r.r.c w.size) := by
    rw [decode_take w _ (by rw [List.length_drop]; omega), beNat_drop]
  simp only [readT, herr, ne_eq, not_true_eq_false, if_false, slice_ok _ _ _ hlen, hd]

/-- A scalar read with too few bytes: the cursor is advanced, then the slice
expression panics. -/
theorem readT_short {α : Type} (w : Width) (conv : Nat → α) (zero : α) (r : RBuffer)
    (herr : r.err = none) (hlen : r.r.p.length < r.r.c + w.size) :
    readT w conv zero r =
      .panic .outOfRange { r := { p := r.r.p, c := r.r.c + w.size }, err := r.err } := by
  simp only [readT, herr, ne_eq, not_true_eq_false, if_false, slice_short _ _ _ hlen]

/-- A scalar read on a buffer in error: zero value, nothing changes. -/
theorem readT_err {α : Type} (w : Width) (conv : Nat → α) (zero : α) (r : RBuffer)
    (herr : r.err ≠ none) : readT w conv zero r = .ret zero r := by
  simp only [readT, herr, ne_eq, not_false_eq_true, if_true]

/-- C1: with no error and at least `w` bytes after the cursor `c`, `ReadU16`,
`ReadU32` and `ReadU64` return `Σ_{i<w} p[c+i]·256^(w-1-i)`, move the cursor to
`c + w` and leave the bytes and the error as they were; the bytes
`01 02 03 04` read as a 32-bit integer give `0x01020304`. -/
theorem C1_readU_big_endian (w : Width) (r : RBuffer) (herr : r.err = none)
    (hlen : r.r.c + w.size ≤ r.r.p.length) :
    ReadU w r =
        .ret (∑ i ∈ Finset.range w.size, (r.r.p.getD (r.r.c + i) 0).val * 256 ^ (w.size - 1 - i))
          { r := { p := r.r.p, c := r.r.c + w.size }, err := r.err }
      ∧ ReadU32 ⟨⟨[1, 2, 3, 4], 0⟩, none⟩ = .ret 0x01020304 ⟨⟨[1, 2, 3, 4], 4⟩, none⟩
      ∧ ReadI32 ⟨⟨[1, 2, 3, 4], 0⟩, none⟩ = .ret 0x01020304 ⟨⟨[1, 2, 3, 4], 4⟩, none⟩ := by
  refine ⟨?_, by decide, by decide⟩
  cases w <;> exact readT_ok _ id 0 r herr hlen

theorem C1_readU_big_endian_witness :
    ReadU .w16 ⟨⟨[0xAB, 0x12, 0x34, 0x56], 1⟩, none⟩ = .ret 0x1234 ⟨⟨[0xAB, 0x12, 0x34, 0x56], 3⟩, none⟩ := by
  have h := (C1_readU_big_endian .w16 ⟨⟨[0xAB, 0x12, 0x34, 0x56], 1⟩, none⟩ rfl (by decide)).1
  rw [h]
  decide


/-! ## Lemmas on the array readers -/

theorem getD_take_drop (p : List Byte) (c m x : Nat) (hx : x < m) :
    ((p.drop c).take m).getD x 0 = p.getD (c + x) 0 := by
  simp [List.getD_eq_getElem?_getD, List.getElem?_take, hx, List.getElem?_drop]

theorem beNat_take_drop (p : List Byte) (c m off w : Nat) (h : off + w ≤ m) :
    beNat ((p.drop c).take m) off w = beNat p (c + off) w := by
  unfold beNat
  refine Finset.sum_congr rfl fun i hi => ?_
  have hi' : i < w := Finset.mem_range.mp hi
  rw [getD_take_drop p c m (off + i) (by omega), Nat.add_assoc]

/-- The loop of an array reader over a sub-slice that is long enough: it does
not panic, writes the decoded elements at the indices `i … i+k-1` and leaves
the other elements of the destination alone. -/
theorem fillLoop_ok {α : Type} (w : Width) (conv : Nat → α) (sub : List Byte) :
    ∀ (k i : Nat) (sli : List α), w.size * (i + k) ≤ sub.length → i + k ≤ sli.length →
      ∃ sli1, fillLoop w conv sub k i (w.size * i) sli = .ret () sli1
        ∧ sli1.length = sli.length
        ∧ (∀ j, i ≤ j → j < i + k → sli1[j]? = some (conv (beNat sub (w.size * j) w.size)))
        ∧ (∀ j, j < i → sli1[j]? = sli[j]?) := by
  intro k
  induction k with
  | zero =>
    intro i sli _ _
    exact ⟨sli, rfl, rfl, fun j h1 h2 => absurd h2 (by omega), fun _ _ => rfl⟩
  | succ k ih =>
    intro i sli hsub hsli
    have hs : w.size * i + w.size ≤ sub.length := by
      have : w.size * (i + (k + 1)) = w.size * i + w.size + w.size * k := by ring
      omega
    have hd : w.decode ((sub.drop (w.size * i)).take w.size)
        = some (beNat sub (w.size * i) w.size) := by
      rw [decode_take w _ (by rw [List.length_drop]; omega), beNat_drop]
    obtain ⟨sli1, h1, h2, h3, h4⟩ :=
      ih (i + 1) (sli.set i (conv (beNat sub (w.size * i) w.size)))
        (by rw [show i + 1 + k = i + (k + 1) by omega]; exact hsub)
        (by rw [List.length_set]; omega)
    refine ⟨sli1, ?_, ?_, ?_, ?_⟩
    · simp only [fillLoop, slice_ok _ _ _ hs, hd]
      rw [show w.size * i + w.size = w.size * (i + 1) by ring]
      exact h1
    · rw [h2, List.length_set]
    · intro j hj1 hj2
      rcases Nat.eq_or_lt_of_le hj1 with heq | hlt
      · subst heq
        rw [h4 i (by omega), List.getElem?_set_self (by omega)]
      · exact h3 j (by omega) (by omega)
    · intro j hj
      rw [h4 j (by omega), List.getElem?_set_ne (by omega)]

/-- An array read with enough bytes. -/
theorem readArrayT_ok {α : Type} (w : Width) (conv : Nat → α) (sli : List α) (r : RBuffer)
    (herr : r.err = none) (hlen : r.r.c + w.size * sli.length ≤ r.r.p.length) :
    ∃ sli1, readArrayT w conv sli r =
        .ret () (sli1, { r := { p := r.r.p, c := r.r.c + w.size * sli.length }, err := r.err })
      ∧ sli1.length = sli.length
      ∧ (∀ i, i < sli.length →
          sli1[i]? = some (conv (beNat r.r.p (r.r.c + w.size * i) w.size)))
      ∧ (sli.length = 0 → sli1 = sli) := by
  by_cases hn : sli.length = 0
  · refine ⟨sli, ?_, rfl, fun i hi => absurd hi (by omega), fun _ => rfl⟩
    obtain ⟨⟨p, c⟩, e⟩ := r
    simp only at herr
    subst herr
    simp [readArrayT, hn]
  · have hpos : 0 < sli.length := Nat.pos_of_ne_zero hn
    have hs1 : 1 ≤ w.size := by cases w <;> decide
    have hmul : sli.length ≤ w.size * sli.length := Nat.le_mul_of_pos_left _ hs1
    have hguard : ¬ ((sli.length : Int) ≤ 0 ∨ (sli.length : Int) > r.Len) := by
      unfold RBuffer.Len
      omega
    obtain ⟨sli1, h1, h2, h3, _⟩ :=
      fillLoop_ok w conv ((r.r.p.drop r.r.c).take (w.size * sli.length)) sli.length 0 sli
        (by rw [List.length_take, List.length_drop]; simp; omega) (by omega)
    refine ⟨sli1, ?_, h2, ?_, fun h => absurd h hn⟩
    · rw [Nat.mul_zero] at h1
      simp only [readArrayT, herr, ne_eq, not_true_eq_false, if_false, hguard,
        slice_ok _ _ _ hlen, h1]
    · intro i hi
      rw [h3 i (by omega) (by omega), beNat_take_drop]
      have : w.size * i + w.size = w.size * (i + 1) := by ring
      rw [this]
      exact Nat.mul_le_mul_left _ hi

/-- An array read on a buffer in error does nothing. -/
theorem readArrayT_err {α : Type} (w : Width) (conv : Nat → α) (sli : List α) (r : RBuffer)
    (herr : r.err ≠ none) : readArrayT w conv sli r = .ret () (sli, r) := by
  simp only [readArrayT, herr, ne_eq, not_false_eq_true, if_true]

/-- An array read of more elements than bytes remain returns without a trace. -/
theorem readArrayT_guard {α : Type} (w : Width) (conv : Nat → α) (sli : List α) (r : RBuffer)
    (hlen : r.Len < sli.length) : readArrayT w conv sli r = .ret () (sli, r) := by
  unfold readArrayT
  split
  · rfl
  · rw [if_pos (Or.inr hlen)]

/-- An array read whose guard passes but whose bytes do not suffice panics on
the slice expression, before anything is written. -/
theorem readArrayT_panic {α : Type} (w : Width) (conv : Nat → α) (sli : List α) (r : RBuffer)
    (herr : r.err = none) (hpos : 0 < sli.length) (hguard : (sli.length : Int) ≤ r.Len)
    (hshort : r.r.p.length < r.r.c + w.size * sli.length) :
    readArrayT w conv sli r = .panic .outOfRange (sli, r) := by
  have hg : ¬ ((sli.length : Int) ≤ 0 ∨ (sli.length : Int) > r.Len) := by omega
  simp only [readArrayT, herr, ne_eq, not_true_eq_false, if_false, hg,
    slice_short _ _ _ hshort]

/-! ## The claims on the generated readers -/

theorem read_eq_readT (T : ElemT) (r : RBuffer) :
    Read T r = readT T.width T.ofWord T.zero r := by
  cases T <;> rfl

theorem readArray_eq_readArrayT (T : ElemT) (dst : List T.Go) (r : RBuffer) :
    ReadArray T dst r = readArrayT T.width T.ofWord dst r := by
  cases T <;> rfl

/-- C5 (as stated, refuted): `ReadU16` on the one-byte buffer `01` with no error
does not return the zero value with a sticky error and an unmoved cursor: it
panics, the cursor stands at 2, past the end of the one-byte slice, and the
error is still unset. -/
theorem C5_counterexample :
    (¬ ∃ e : Error, ReadU16 ⟨⟨[1], 0⟩, none⟩ = .ret 0 ⟨⟨[1], 0⟩, some e⟩)
      ∧ ReadU16 ⟨⟨[1], 0⟩, none⟩ = .panic .outOfRange ⟨⟨[1], 2⟩, none⟩ := by
  have h : ReadU16 ⟨⟨[1], 0⟩, none⟩ = .panic .outOfRange ⟨⟨[1], 2⟩, none⟩ := by decide
  refine ⟨?_, h⟩
  rintro ⟨e, he⟩
  rw [h] at he
  cases he

/-- C5 (amended): with no error and fewer than `sizeof(T)` bytes after the
cursor `c`, every scalar reader panics on its slice expression instead of
returning; at the panic the cursor is `c + sizeof(T)`, beyond the end of the
byte slice, the sticky error is still unset and the bytes are unchanged. -/
theorem C5_short_read_panics (T : ElemT) (r : RBuffer) (herr : r.err = none)
    (hshort : r.r.p.length < r.r.c + T.size) :
    Read T r = .panic .outOfRange { r := { p := r.r.p, c := r.r.c + T.size }, err := none }
      ∧ r.r.p.length < (Read T r).state.r.c := by
  have h : Read T r
      = .panic .outOfRange { r := { p := r.r.p, c := r.r.c + T.size }, err := none } := by
    rw [read_eq_readT, readT_short _ _ _ r herr hshort, herr]
    rfl
  refine ⟨h, ?_⟩
  rw [h]
  exact hshort

theorem C5_short_read_panics_witness :
    ReadI64 ⟨⟨[1, 2, 3, 4, 5, 6, 7, 8, 9], 2⟩, none⟩
      = .panic .outOfRange ⟨⟨[1, 2, 3, 4, 5, 6, 7, 8, 9], 10⟩, none⟩ :=
  (C5_short_read_panics .I64 ⟨⟨[1, 2, 3, 4, 5, 6, 7, 8, 9], 2⟩, none⟩ rfl (by decide)).1

/-- C7: with no error and at least `sizeof(T) * n` bytes after the cursor `c`,
`ReadArrayT(dst)` with `n = len(dst)` returns, `dst[i]` is the big-endian
decoding as `T` of the `sizeof(T)` bytes at `c + sizeof(T) * i` for every
`i < n`, the length of `dst` is unchanged, the cursor is `c + sizeof(T) * n`,
the bytes and the error are unchanged; for `n = 0` nothing changes at all. -/
theorem C7_read_array (T : ElemT) (dst : List T.Go) (r : RBuffer) (herr : r.err = none)
    (hlen : r.r.c + T.size * dst.length ≤ r.r.p.length) :
    ∃ dst1 : List T.Go,
      ReadArray T dst r
          = .ret () (dst1, { r := { p := r.r.p, c := r.r.c + T.size * dst.length }, err := r.err })
        ∧ dst1.length = dst.length
        ∧ (∀ i, i < dst.length →
            dst1[i]? = some (T.ofWord (beNat r.r.p (r.r.c + T.size * i) T.size)))
        ∧ (dst.length = 0 → ReadArray T dst r = .ret () (dst, r)) := by
  obtain ⟨dst1, h1, h2, h3, h4⟩ := readArrayT_ok T.width T.ofWord dst r herr hlen
  refine ⟨dst1, ?_, h2, h3, ?_⟩
  · rw [readArray_eq_readArrayT]
    exact h1
  · intro h0
    rw [readArray_eq_readArrayT, h1, h4 h0, h0]
    obtain ⟨⟨p, c⟩, e⟩ := r
    simp

theorem C7_read_array_witness :
    ∃ dst1 : List Int,
      ReadArrayI16 [5, 5] ⟨⟨[9, 0xFF, 0xFE, 0x01, 0x02, 9], 1⟩, none⟩
          = .ret () (dst1, ⟨⟨[9, 0xFF, 0xFE, 0x01, 0x02, 9], 5⟩, none⟩)
        ∧ dst1.length = 2 ∧ dst1[0]? = some (-2) ∧ dst1[1]? = some 258 := by
  obtain ⟨dst1, h1, h2, h3, _⟩ :=
    C7_read_array .I16 ([5, 5] : List Int) ⟨⟨[9, 0xFF, 0xFE, 0x01, 0x02, 9], 1⟩, none⟩ rfl (by decide)
  refine ⟨dst1, h1, h2, ?_, ?_⟩
  · exact h3 0 (by decide)
  · exact h3 1 (by decide)

/-- C8 (as stated, refuted): `ReadArrayU16` into a destination of two elements on
the one-byte buffer `01` with no error returns with the error still unset and
the destination and the cursor untouched: neither populated nor failed. -/
theorem C8_counterexample :
    ReadArrayU16 [7, 7] ⟨⟨[1], 0⟩, none⟩ = .ret () ([7, 7], ⟨⟨[1], 0⟩, none⟩) := by
  decide

/-- C8 (amended): for a buffer with no error and a non-empty destination,
`ReadArrayT(dst)` populates all `len(dst)` elements from the stream and moves
the cursor by `sizeof(T) * len(dst)` when that many bytes remain; when fewer
than `len(dst)` bytes remain it returns with the error unset and with the
destination, the cursor and the bytes unchanged. In no case is the sticky
error set. -/
theorem C8_read_array_populates_or_skips (T : ElemT) (dst : List T.Go) (r : RBuffer)
    (herr : r.err = none) (_hne : dst ≠ []) :
    (r.r.c + T.size * dst.length ≤ r.r.p.length →
        ∃ dst1 : List T.Go,
          ReadArray T dst r
              = .ret () (dst1,
                  { r := { p := r.r.p, c := r.r.c + T.size * dst.length }, err := none })
            ∧ dst1.length = dst.length
            ∧ ∀ i, i < dst.length →
                dst1[i]? = some (T.ofWord (beNat r.r.p (r.r.c + T.size * i) T.size)))
      ∧ (r.Len < dst.length → ReadArray T dst r = .ret () (dst, r))
      ∧ (ReadArray T dst r).state.2.err = none := by
  refine ⟨?_, ?_, ?_⟩
  · intro hlen
    obtain ⟨dst1, h1, h2, h3, _⟩ := readArrayT_ok T.width T.ofWord dst r herr hlen
    refine ⟨dst1, ?_, h2, h3⟩
    rw [readArray_eq_readArrayT, h1, herr]
    rfl
  · intro hlen
    rw [readArray_eq_readArrayT]
    exact readArrayT_guard _ _ _ _ hlen
  · rw [readArray_eq_readArrayT]
    unfold readArrayT
    rw [if_neg (by simp [herr])]
    simp only []
    split
    · exact herr
    · split
      · exact herr
      · split
        · exact herr
        · exact herr

theorem C8_read_array_populates_or_skips_witness :
    (∃ dst1 : List Nat,
        ReadArrayU32 [0] ⟨⟨[0, 0, 1, 2], 0⟩, none⟩ = .ret () (dst1, ⟨⟨[0, 0, 1, 2], 4⟩, none⟩)
          ∧ dst1.length = 1)
      ∧ ReadArrayU32 [0, 0] ⟨⟨[5], 0⟩, none⟩ = .ret () ([0, 0], ⟨⟨[5], 0⟩, none⟩) := by
  constructor
  · obtain ⟨dst1, h1, h2, _⟩ :=
      (C8_read_array_populates_or_skips .U32 ([0] : List Nat) ⟨⟨[0, 0, 1, 2], 0⟩, none⟩ rfl
        (by decide)).1 (by decide)
    exact ⟨dst1, h1, h2⟩
  · exact (C8_read_array_populates_or_skips .U32 ([0, 0] : List Nat) ⟨⟨[5], 0⟩, none⟩ rfl
      (by decide)).2.1 (by decide)

/-- C9 (the code at the failing input): `ReadArrayU16` into a destination of
two elements on the two-byte buffer `00 01`: the guard `0 < 2 <= Len() = 2`
lets the read proceed, `end = 0 + 2*2 = 4` exceeds the length 2 of the byte
slice, and the slice expression `r.r.p[cur:end]` panics. -/
theorem C9_guard_counts_elements_not_bytes :
    ReadArrayU16 [0, 0] ⟨⟨[0, 1], 0⟩, none⟩
        = .panic .outOfRange ([0, 0], ⟨⟨[0, 1], 0⟩, none⟩)
      ∧ ((0 : Int) < ([0, 0] : List Nat).length
          ∧ (([0, 0] : List Nat).length : Int) ≤ RBuffer.Len ⟨⟨[0, 1], 0⟩, none⟩)
      ∧ ¬ (0 + ElemT.size .U16 * ([0, 0] : List Nat).length ≤ ([0, 1] : List Byte).length) := by
  decide

/-! ## The claims on `tbranch.UnmarshalROOT` -/

/-- C6: on a buffer whose sticky error is set, every scalar reader returns the
zero value, every `ReadArrayT` leaves its destination as it was, and
`tbranch.UnmarshalROOT` returns that very error with the branch untouched; in
all three cases the buffer (cursor, bytes and error) is unchanged. -/
theorem C6_sticky_error_is_a_no_op (r : RBuffer) (herr : r.err ≠ none) :
    (∀ T : ElemT, Read T r = .ret T.zero r)
      ∧ (∀ (T : ElemT) (dst : List T.Go), ReadArray T dst r = .ret () (dst, r))
      ∧ (∀ (d : Decoders) (b : tbranch), UnmarshalROOT d b r = .ret r.err (b, r)) := by
  refine ⟨fun T => ?_, fun T dst => ?_, fun d b => ?_⟩
  · rw [read_eq_readT]
    exact readT_err _ _ _ r herr
  · rw [readArray_eq_readArrayT]
    exact readArrayT_err _ _ _ r herr
  · unfold UnmarshalROOT RBuffer.Err
    rw [if_pos herr]

theorem C6_sticky_error_is_a_no_op_witness :
    ReadF64 ⟨⟨[1, 2, 3, 4, 5, 6, 7, 8], 0⟩, some (.Truncated 4 2)⟩
        = .ret ⟨0⟩ ⟨⟨[1, 2, 3, 4, 5, 6, 7, 8], 0⟩, some (.Truncated 4 2)⟩
      ∧ ReadArrayI32 [9] ⟨⟨[1, 2, 3, 4, 5, 6, 7, 8], 0⟩, some (.Truncated 4 2)⟩
        = .ret () ([9], ⟨⟨[1, 2, 3, 4, 5, 6, 7, 8], 0⟩, some (.Truncated 4 2)⟩)
      ∧ UnmarshalROOT sampleDecoders tbranch.zero
          ⟨⟨[1, 2, 3, 4, 5, 6, 7, 8], 0⟩, some (.Truncated 4 2)⟩
        = .ret (some (.Truncated 4 2))
            (tbranch.zero, ⟨⟨[1, 2, 3, 4, 5, 6, 7, 8], 0⟩, some (.Truncated 4 2)⟩) :=
  have h := C6_sticky_error_is_a_no_op
    ⟨⟨[1, 2, 3, 4, 5, 6, 7, 8], 0⟩, some (.Truncated 4 2)⟩ (by decide)
  ⟨h.1 .F64, h.2.1 .I32 ([9] : List Int), h.2.2 sampleDecoders tbranch.zero⟩

/-- C3 (as stated, refuted): on a payload whose class header carries version 11
`tbranch.UnmarshalROOT` does not return an error: it panics. -/
theorem C3_counterexample :
    UnmarshalROOT sampleDecoders tbranch.zero ⟨⟨[0x40, 0, 0, 2, 0, 11], 0⟩, none⟩
        = .panic (.tooOldVersion 11)
            ({ tbranch.zero with firstbasket := -1, nextbasket := -1 },
              ⟨⟨[0x40, 0, 0, 2, 0, 11], 6⟩, none⟩)
      ∧ ¬ ∃ (e : Error) (s : tbranch × RBuffer),
          UnmarshalROOT sampleDecoders tbranch.zero ⟨⟨[0x40, 0, 0, 2, 0, 11], 0⟩, none⟩
            = .ret (some e) s := by
  have h : UnmarshalROOT sampleDecoders tbranch.zero ⟨⟨[0x40, 0, 0, 2, 0, 11], 0⟩, none⟩
      = .panic (.tooOldVersion 11)
          ({ tbranch.zero with firstbasket := -1, nextbasket := -1 },
            ⟨⟨[0x40, 0, 0, 2, 0, 11], 6⟩, none⟩) := by
    rfl
  refine ⟨h, ?_⟩
  rintro ⟨e, s, hs⟩
  rw [h] at hs
  cases hs

/-- C3 (amended): when the buffer has no error and the class header is read
with a version below 12, `tbranch.UnmarshalROOT` does not return: it panics
with the error value "too old TBanch version (vers<12)", after resetting
`tree`, `currbasket`, `firstbasket` and `nextbasket` of the receiver and
before reading anything after the class header. -/
theorem C3_old_version_panics (d : Decoders) (b : tbranch) (r r1 : RBuffer)
    (vers : Nat) (pos : Int) (bcnt : Nat) (herr : r.err = none)
    (hver : ReadVersion r = .ret (vers, pos, bcnt) r1) (hold : vers < 12) :
    UnmarshalROOT d b r
      = .panic (.tooOldVersion vers)
          ({ b with tree := none, currbasket := none, firstbasket := -1, nextbasket := -1 },
            r1) := by
  unfold UnmarshalROOT RBuffer.Err
  rw [if_neg (by simp [herr]), hver]
  simp only []
  rw [if_pos hold]

theorem C3_old_version_panics_witness :
    UnmarshalROOT sampleDecoders tbranch.zero ⟨⟨[0x40, 0, 0, 2, 0, 11, 0, 0], 0⟩, none⟩
      = .panic (.tooOldVersion 11)
          ({ tbranch.zero with
              tree := none, currbasket := none, firstbasket := -1, nextbasket := -1 },
            ⟨⟨[0x40, 0, 0, 2, 0, 11, 0, 0], 6⟩, none⟩) :=
  C3_old_version_panics sampleDecoders tbranch.zero ⟨⟨[0x40, 0, 0, 2, 0, 11, 0, 0], 0⟩, none⟩
    ⟨⟨[0x40, 0, 0, 2, 0, 11, 0, 0], 6⟩, none⟩ 11 4 2 rfl (by decide) (by decide)

theorem readI32_step (p : List Byte) (c : Nat) (h : c + 4 ≤ p.length) :
    ReadI32 ⟨⟨p, c⟩, none⟩ = .ret (toSigned 32 (beNat p c 4)) ⟨⟨p, c + 4⟩, none⟩ :=
  readT_ok .w32 (toSigned 32) 0 ⟨⟨p, c⟩, none⟩ rfl h

theorem readI64_step (p : List Byte) (c : Nat) (h : c + 8 ≤ p.length) :
    ReadI64 ⟨⟨p, c⟩, none⟩ = .ret (toSigned 64 (beNat p c 8)) ⟨⟨p, c + 8⟩, none⟩ :=
  readT_ok .w64 (toSigned 64) 0 ⟨⟨p, c⟩, none⟩ rfl h

/-- The fixed scalar block on a buffer with no error and 68 bytes left. -/
theorem readScalars_ok (b : tbranch) (p : List Byte) (c : Nat) (h : c + 68 ≤ p.length) :
    readScalars b ⟨⟨p, c⟩, none⟩
      = .ret ()
          ({ b with
              compress := toSigned 32 (beNat p (c + 0) 4)
              basketSize := toSigned 32 (beNat p (c + 4) 4)
              entryOffsetLen := toSigned 32 (beNat p (c + 8) 4)
              writeBasket := toSigned 32 (beNat p (c + 12) 4)
              entryNumber := toSigned 64 (beNat p (c + 16) 8)
              offset := toSigned 32 (beNat p (c + 24) 4)
              maxBaskets := toSigned 32 (beNat p (c + 28) 4)
              splitLevel := toSigned 32 (beNat p (c + 32) 4)
              entries := toSigned 64 (beNat p (c + 36) 8)
              firstEntry := toSigned 64 (beNat p (c + 44) 8)
              totBytes := toSigned 64 (beNat p (c + 52) 8)
              zipBytes := toSigned 64 (beNat p (c + 60) 8) },
            ⟨⟨p, c + 68⟩, none⟩) := by
  unfold readScalars
  rw [readI32_step p c (by omega)]
  simp only []
  rw [readI32_step p (c + 4) (by omega)]
  simp only []
  rw [readI32_step p (c + 4 + 4) (by omega)]
  simp only []
  rw [readI32_step p (c + 4 + 4 + 4) (by omega)]
  simp only []
  rw [readI64_step p (c + 4 + 4 + 4 + 4) (by omega)]
  simp only []
  rw [readI32_step p (c + 4 + 4 + 4 + 4 + 8) (by omega)]
  simp only []
  rw [readI32_step p (c + 4 + 4 + 4 + 4 + 8 + 4) (by omega)]
  simp only []
  rw [readI32_step p (c + 4 + 4 + 4 + 4 + 8 + 4 + 4) (by omega)]
  simp only []
  rw [readI64_step p (c + 4 + 4 + 4 + 4 + 8 + 4 + 4 + 4) (by omega)]
  simp only []
  rw [readI64_step p (c + 4 + 4 + 4 + 4 + 8 + 4 + 4 + 4 + 8) (by omega)]
  simp only []
  rw [readI64_step p (c + 4 + 4 + 4 + 4 + 8 + 4 + 4 + 4 + 8 + 8) (by omega)]
  simp only []
  rw [readI64_step p (c + 4 + 4 + 4 + 4 + 8 + 4 + 4 + 4 + 8 + 8 + 8) (by omega)]
  simp [Nat.add_assoc]

/-- C2: when the buffer has no error, the class header is read with a version
of at least 12, the `TNamed` and `TAttFill` preambles decode without error and
leave the buffer without error with at least 68 bytes after the cursor `c`,
`tbranch.UnmarshalROOT` reads `compress:i32` at `c+0`, `basketSize:i32` at
`c+4`, `entryOffsetLen:i32` at `c+8`, `writeBasket:i32` at `c+12`,
`entryNumber:i64` at `c+16`, `offset:i32` at `c+24`, `maxBaskets:i32` at `c+28`,
`splitLevel:i32` at `c+32`, `entries:i64` at `c+36`, `firstEntry:i64` at `c+44`,
`totBytes:i64` at `c+52` and `zipBytes:i64` at `c+60`, each the signed
big-endian value of its bytes, and goes on to the first object array with the
cursor at `c+68`. -/
theorem C2_scalar_block_layout (d : Decoders) (b b1 : tbranch) (r r1 r2 : RBuffer)
    (vers : Nat) (pos : Int) (bcnt : Nat) (herr : r.err = none)
    (hver : ReadVersion r = .ret (vers, pos, bcnt) r1) (h12 : 12 ≤ vers)
    (hpre : readPreamble d
        { b with tree := none, currbasket := none, firstbasket := -1, nextbasket := -1 } r1
      = .ret none (b1, r2))
    (herr2 : r2.err = none) (hlen : r2.r.c + 68 ≤ r2.r.p.length) :
    readScalars b1 r2
        = .ret ()
            ({ b1 with
                compress := toSigned 32 (beNat r2.r.p (r2.r.c + 0) 4)
                basketSize := toSigned 32 (beNat r2.r.p (r2.r.c + 4) 4)
                entryOffsetLen := toSigned 32 (beNat r2.r.p (r2.r.c + 8) 4)
                writeBasket := toSigned 32 (beNat r2.r.p (r2.r.c + 12) 4)
                entryNumber := toSigned 64 (beNat r2.r.p (r2.r.c + 16) 8)
                offset := toSigned 32 (beNat r2.r.p (r2.r.c + 24) 4)
                maxBaskets := toSigned 32 (beNat r2.r.p (r2.r.c + 28) 4)
                splitLevel := toSigned 32 (beNat r2.r.p (r2.r.c + 32) 4)
                entries := toSigned 64 (beNat r2.r.p (r2.r.c + 36) 8)
                firstEntry := toSigned 64 (beNat r2.r.p (r2.r.c + 44) 8)
                totBytes := toSigned 64 (beNat r2.r.p (r2.r.c + 52) 8)
                zipBytes := toSigned 64 (beNat r2.r.p (r2.r.c + 60) 8) },
              ⟨⟨r2.r.p, r2.r.c + 68⟩, none⟩)
      ∧ UnmarshalROOT d b r
        = decodeRest d pos bcnt r.Pos
            { b1 with
                compress := toSigned 32 (beNat r2.r.p (r2.r.c + 0) 4)
                basketSize := toSigned 32 (beNat r2.r.p (r2.r.c + 4) 4)
                entryOffsetLen := toSigned 32 (beNat r2.r.p (r2.r.c + 8) 4)
                writeBasket := toSigned 32 (beNat r2.r.p (r2.r.c + 12) 4)
                entryNumber := toSigned 64 (beNat r2.r.p (r2.r.c + 16) 8)
                offset := toSigned 32 (beNat r2.r.p (r2.r.c + 24) 4)
                maxBaskets := toSigned 32 (beNat r2.r.p (r2.r.c + 28) 4)
                splitLevel := toSigned 32 (beNat r2.r.p (r2.r.c + 32) 4)
                entries := toSigned 64 (beNat r2.r.p (r2.r.c + 36) 8)
                firstEntry := toSigned 64 (beNat r2.r.p (r2.r.c + 44) 8)
                totBytes := toSigned 64 (beNat r2.r.p (r2.r.c + 52) 8)
                zipBytes := toSigned 64 (beNat r2.r.p (r2.r.c + 60) 8) }
            ⟨⟨r2.r.p, r2.r.c + 68⟩, none⟩ := by
  have hs := readScalars_ok b1 r2.r.p r2.r.c hlen
  have hr2 : r2 = ⟨⟨r2.r.p, r2.r.c⟩, none⟩ := by
    obtain ⟨⟨p, c⟩, e⟩ := r2
    simp only at herr2
    subst herr2
    rfl
  rw [← hr2] at hs
  refine ⟨hs, ?_⟩
  unfold UnmarshalROOT RBuffer.Err
  rw [if_neg (by simp [herr]), hver]
  simp only []
  rw [if_neg (by omega), hpre]
  simp only []
  rw [hs]

set_option maxRecDepth 100000 in
theorem C2_scalar_block_layout_witness :
    (readScalars
        { tbranch.zero with named := ⟨[0x70, 0x78], []⟩, firstbasket := -1, nextbasket := -1 }
        ⟨⟨samplePayload, 14⟩, none⟩).state.1.maxBaskets = 1
      ∧ (readScalars
        { tbranch.zero with named := ⟨[0x70, 0x78], []⟩, firstbasket := -1, nextbasket := -1 }
        ⟨⟨samplePayload, 14⟩, none⟩).state.2 = ⟨⟨samplePayload, 82⟩, none⟩ := by
  have h := (C2_scalar_block_layout sampleDecoders tbranch.zero
    { tbranch.zero with named := ⟨[0x70, 0x78], []⟩, firstbasket := -1, nextbasket := -1 }
    ⟨⟨samplePayload, 0⟩, none⟩ ⟨⟨samplePayload, 6⟩, none⟩ ⟨⟨samplePayload, 14⟩, none⟩
    12 4 114 rfl (by decide) (by decide) rfl rfl (Nat.le_of_ble_eq_true rfl)).1
  rw [h]
  exact ⟨rfl, rfl⟩

theorem copy_length {α : Type} (dst src : List α) : (copy dst src).length = dst.length := by
  unfold copy
  rw [List.length_append, List.length_take, List.length_drop]
  omega

theorem make_of_nonneg {α : Type} (zero : α) (n : Int) (h : 0 ≤ n) :
    make zero n = some (List.replicate n.toNat zero) := by
  unfold make
  rw [if_neg (by omega)]

/-- Whatever the stream holds, the basket-table stage leaves the three tables
with `maxBaskets` elements each (and `maxBaskets` itself untouched). -/
theorem readTables_lengths (b : tbranch) (r : RBuffer) (h : 0 ≤ b.maxBaskets) :
    (readTables b r).state.1.maxBaskets = b.maxBaskets
      ∧ (readTables b r).state.1.basketBytes.length = b.maxBaskets.toNat
      ∧ (readTables b r).state.1.basketEntry.length = b.maxBaskets.toNat
      ∧ (readTables b r).state.1.basketSeek.length = b.maxBaskets.toNat := by
  unfold readTables
  simp only [make_of_nonneg _ _ h]
  repeat' split
  all_goals simp [Exec.state, copy_length]

/-- The last stage does not touch `maxBaskets` or the basket tables. -/
theorem finish_tables (pos : Int) (bcnt : Nat) (beg : Int) (b : tbranch) (r : RBuffer) :
    (finish pos bcnt beg b r).state.1.maxBaskets = b.maxBaskets
      ∧ (finish pos bcnt beg b r).state.1.basketBytes = b.basketBytes
      ∧ (finish pos bcnt beg b r).state.1.basketEntry = b.basketEntry
      ∧ (finish pos bcnt beg b r).state.1.basketSeek = b.basketSeek := by
  unfold finish
  repeat' split
  all_goals simp [Exec.state]

theorem readBranches_maxBaskets (d : Decoders) (b : tbranch) (r : RBuffer) :
    (readBranches d b r).state.1.maxBaskets = b.maxBaskets := by
  unfold readBranches
  split
  · rfl
  · rfl
  · split
    · rfl
    · simp only []
      generalize copyLoop _ _ _ _ _ = o
      cases o <;> rfl

theorem readLeaves_maxBaskets (d : Decoders) (b : tbranch) (r : RBuffer) :
    (readLeaves d b r).state.1.maxBaskets = b.maxBaskets := by
  unfold readLeaves
  split
  · rfl
  · rfl
  · split
    · rfl
    · simp only []
      generalize copyLoop _ _ _ _ _ = o
      cases o <;> rfl

theorem readBaskets_maxBaskets (d : Decoders) (b : tbranch) (r : RBuffer) :
    (readBaskets d b r).state.1.maxBaskets = b.maxBaskets := by
  unfold readBaskets
  split
  · rfl
  · rfl
  · split
    · rfl
    · simp only []
      generalize copyLoop _ _ _ _ _ = o
      cases o <;> rfl

/-- The object arrays do not touch `maxBaskets`. -/
theorem readObjArrays_maxBaskets (d : Decoders) (b : tbranch) (r : RBuffer) :
    (readObjArrays d b r).state.1.maxBaskets = b.maxBaskets := by
  unfold readObjArrays
  split
  · rename_i pv s h
    have := readBranches_maxBaskets d b r
    rw [h] at this
    exact this
  · rename_i e s h
    have := readBranches_maxBaskets d b r
    rw [h] at this
    exact this
  · rename_i b1 r1 h
    have h1 := readBranches_maxBaskets d b r
    rw [h] at h1
    simp only [Exec.state] at h1
    split
    · rename_i pv s h'
      have := readLeaves_maxBaskets d b1 r1
      rw [h'] at this
      exact this.trans h1
    · rename_i e s h'
      have := readLeaves_maxBaskets d b1 r1
      rw [h'] at this
      exact this.trans h1
    · rename_i b2 r2 h'
      have h2 := readLeaves_maxBaskets d b1 r1
      rw [h'] at h2
      simp only [Exec.state] at h2
      exact (readBaskets_maxBaskets d b2 r2).trans (h2.trans h1)

/-- The unfolding of `UnmarshalROOT` along a run that gets to the basket
tables. -/
theorem unmarshal_past_arrays (d : Decoders) (b b1 b2 b3 : tbranch) (r r1 r2 r3 r4 : RBuffer)
    (vers : Nat) (pos : Int) (bcnt : Nat) (herr : r.err = none)
    (hver : ReadVersion r = .ret (vers, pos, bcnt) r1) (h12 : 12 ≤ vers)
    (hpre : readPreamble d
        { b with tree := none, currbasket := none, firstbasket := -1, nextbasket := -1 } r1
      = .ret none (b1, r2))
    (hsc : readScalars b1 r2 = .ret () (b2, r3))
    (harr : readObjArrays d b2 r3 = .ret none (b3, r4)) :
    UnmarshalROOT d b r
      = match readTables b3 r4 with
        | .panic pv s => .panic pv s
        | .ret _ (b4, r5) => finish pos bcnt r.Pos b4 r5 := by
  unfold UnmarshalROOT RBuffer.Err
  rw [if_neg (by simp [herr]), hver]
  simp only []
  rw [if_neg (by omega), hpre]
  simp only []
  rw [hsc]
  simp only [decodeRest]
  rw [harr]

/-- C10: after a call of `tbranch.UnmarshalROOT` that gets past the three
object arrays with a decoded `maxBaskets >= 0`, whether the call then returns
(with or without error) or panics, `basketBytes`, `basketEntry` and
`basketSeek` each have exactly `maxBaskets` elements, and `maxBaskets` is the
decoded value: the rest of the stream has no influence on the lengths. -/
theorem C10_basket_table_lengths (d : Decoders) (b b1 b2 b3 : tbranch)
    (r r1 r2 r3 r4 : RBuffer) (vers : Nat) (pos : Int) (bcnt : Nat) (herr : r.err = none)
    (hver : ReadVersion r = .ret (vers, pos, bcnt) r1) (h12 : 12 ≤ vers)
    (hpre : readPreamble d
        { b with tree := none, currbasket := none, firstbasket := -1, nextbasket := -1 } r1
      = .ret none (b1, r2))
    (hsc : readScalars b1 r2 = .ret () (b2, r3))
    (harr : readObjArrays d b2 r3 = .ret none (b3, r4))
    (hmax : 0 ≤ b2.maxBaskets) :
    (UnmarshalROOT d b r).state.1.maxBaskets = b2.maxBaskets
      ∧ ((UnmarshalROOT d b r).state.1.basketBytes.length : Int) = b2.maxBaskets
      ∧ ((UnmarshalROOT d b r).state.1.basketEntry.length : Int) = b2.maxBaskets
      ∧ ((UnmarshalROOT d b r).state.1.basketSeek.length : Int) = b2.maxBaskets := by
  have h3 : b3.maxBaskets = b2.maxBaskets := by
    have := readObjArrays_maxBaskets d b2 r3
    rw [harr] at this
    exact this
  have hmax3 : 0 ≤ b3.maxBaskets := by rw [h3]; exact hmax
  obtain ⟨t0, t1, t2, t3⟩ := readTables_lengths b3 r4 hmax3
  rw [unmarshal_past_arrays d b b1 b2 b3 r r1 r2 r3 r4 vers pos bcnt herr hver h12 hpre hsc harr]
  have key : ∀ x : tbranch, x.maxBaskets = b3.maxBaskets →
      x.basketBytes.length = b3.maxBaskets.toNat →
      x.basketEntry.length = b3.maxBaskets.toNat →
      x.basketSeek.length = b3.maxBaskets.toNat →
      x.maxBaskets = b2.maxBaskets ∧ (x.basketBytes.length : Int) = b2.maxBaskets
        ∧ (x.basketEntry.length : Int) = b2.maxBaskets
        ∧ (x.basketSeek.length : Int) = b2.maxBaskets := by
    intro x e0 e1 e2 e3
    rw [e1, e2, e3, e0, h3]
    refine ⟨rfl, ?_, ?_, ?_⟩ <;> exact Int.toNat_of_nonneg hmax
  split
  · rename_i pv s hs
    rw [hs] at t0 t1 t2 t3
    exact key _ t0 t1 t2 t3
  · rename_i u b4 r5 hs
    rw [hs] at t0 t1 t2 t3
    simp only [Exec.state] at t0 t1 t2 t3
    obtain ⟨f0, f1, f2, f3⟩ := finish_tables pos bcnt r.Pos b4 r5
    exact key _ (f0.trans t0) (by rw [f1]; exact t1) (by rw [f2]; exact t2)
      (by rw [f3]; exact t3)

set_option maxRecDepth 100000 in
theorem C10_basket_table_lengths_witness :
    (UnmarshalROOT sampleDecoders tbranch.zero
        ⟨⟨samplePayload.take 94, 0⟩, none⟩).state.1.maxBaskets = 1
      ∧ ((UnmarshalROOT sampleDecoders tbranch.zero
        ⟨⟨samplePayload.take 94, 0⟩, none⟩).state.1.basketBytes.length : Int) = 1
      ∧ ((UnmarshalROOT sampleDecoders tbranch.zero
        ⟨⟨samplePayload.take 94, 0⟩, none⟩).state.1.basketEntry.length : Int) = 1
      ∧ ((UnmarshalROOT sampleDecoders tbranch.zero
        ⟨⟨samplePayload.take 94, 0⟩, none⟩).state.1.basketSeek.length : Int) = 1 :=
  C10_basket_table_lengths sampleDecoders tbranch.zero
    { tbranch.zero with named := ⟨[0x70, 0x78], []⟩, firstbasket := -1, nextbasket := -1 }
    { tbranch.zero with
        named := ⟨[0x70, 0x78], []⟩, firstbasket := -1, nextbasket := -1, maxBaskets := 1 }
    { tbranch.zero with
        named := ⟨[0x70, 0x78], []⟩, firstbasket := -1, nextbasket := -1, maxBaskets := 1 }
    ⟨⟨samplePayload.take 94, 0⟩, none⟩ ⟨⟨samplePayload.take 94, 6⟩, none⟩
    ⟨⟨samplePayload.take 94, 14⟩, none⟩ ⟨⟨samplePayload.take 94, 82⟩, none⟩
    ⟨⟨samplePayload.take 94, 94⟩, none⟩ 12 4 114 rfl rfl (by decide) rfl rfl rfl (by decide)

/-- What `ReadVersion` hands out on a buffer with no error: `pos` is the position
right after the count word `raw`, `bcnt` its low 30 bits when the byte-count
flag `0x40000000` is set (and 0 otherwise). -/
theorem readVersion_header (r r1 : RBuffer) (vers : Nat) (pos : Int) (bcnt : Nat)
    (herr : r.err = none) (hver : ReadVersion r = .ret (vers, pos, bcnt) r1) :
    pos = r.Pos + 4
      ∧ ∃ raw r0, ReadU32 r = .ret raw r0
          ∧ bcnt = if raw &&& 0x40000000 ≠ 0 then raw &&& 0x3FFFFFFF else 0 := by
  unfold ReadVersion at hver
  rw [if_neg (by simp [herr])] at hver
  simp only [] at hver
  split at hver
  · cases hver
  · rename_i raw r0 h32
    split at hver
    · cases hver
    · rename_i v r2 h16
      simp only [Exec.ret.injEq, Prod.mk.injEq] at hver
      obtain ⟨⟨_, hp, hb⟩, _⟩ := hver
      exact ⟨hp.symm, raw, r0, h32, hb.symm⟩

/-- The byte-count check on a buffer with no error. -/
theorem finish_check (pos : Int) (bcnt : Nat) (beg : Int) (b : tbranch) (r : RBuffer)
    (herr : r.err = none) :
    (r.Pos = pos + (bcnt : Int) → ∃ b1, finish pos bcnt beg b r = .ret none (b1, r))
      ∧ (r.Pos ≠ pos + (bcnt : Int) →
          ∃ b1, finish pos bcnt beg b r
            = .ret (some (.ProtocolError "TBranch" (pos + (bcnt : Int)) r.Pos))
                (b1, { r with
                        err := some (.ProtocolError "TBranch" (pos + (bcnt : Int)) r.Pos) })) := by
  constructor
  · intro h
    refine ⟨if b.splitLevel = 0 ∧ b.branches.length > 0 then { b with splitLevel := 1 } else b,
      ?_⟩
    simp only [finish, CheckByteCount, herr, ne_eq, not_true_eq_false, if_false, h, if_true,
      RBuffer.Err]
  · intro h
    refine ⟨if b.splitLevel = 0 ∧ b.branches.length > 0 then { b with splitLevel := 1 } else b,
      ?_⟩
    simp only [finish, CheckByteCount, herr, ne_eq, not_true_eq_false, if_false, h,
      RBuffer.Err]

/-- A nil return of the last stage means the byte-count check passed. -/
theorem finish_nil (pos : Int) (bcnt : Nat) (beg : Int) (b b1 : tbranch) (r r1 : RBuffer)
    (h : finish pos bcnt beg b r = .ret none (b1, r1)) :
    r1 = r ∧ r.err = none ∧ r.Pos = pos + (bcnt : Int) := by
  unfold finish CheckByteCount at h
  by_cases herr : r.err = none
  · by_cases hpos : r.Pos = pos + (bcnt : Int)
    · simp only [herr, ne_eq, not_true_eq_false, if_false, hpos, if_true, RBuffer.Err,
        Exec.ret.injEq, Prod.mk.injEq, true_and] at h
      exact ⟨h.2.symm, herr, hpos⟩
    · simp [herr, hpos, RBuffer.Err] at h
  · simp [herr, RBuffer.Err] at h

/-! ## The cursor only moves forward -/

/-- A scalar read that returns has not moved the cursor backwards. -/
theorem readT_cursor {α : Type} (w : Width) (conv : Nat → α) (zero : α) (r r1 : RBuffer)
    (v : α) (h : readT w conv zero r = .ret v r1) : r.r.c ≤ r1.r.c := by
  unfold readT at h
  split at h
  · cases h
    exact Nat.le_refl _
  · simp only [] at h
    split at h
    · cases h
    · split at h
      · cases h
      · cases h
        exact Nat.le_add_right _ _

/-- A scalar read that returns on a buffer with no error has moved the cursor
by the size of the element and left the rest alone. -/
theorem readT_ret {α : Type} (w : Width) (conv : Nat → α) (zero : α) (r r1 : RBuffer)
    (v : α) (herr : r.err = none) (h : readT w conv zero r = .ret v r1) :
    r1 = { r := { p := r.r.p, c := r.r.c + w.size }, err := none } := by
  unfold readT at h
  rw [if_neg (by simp [herr])] at h
  try simp only [] at h
  split at h
  · cases h
  · split at h
    · cases h
    · cases h
      rw [herr]

theorem readScalars_cursor (b b1 : tbranch) (r r1 : RBuffer)
    (h : readScalars b r = .ret () (b1, r1)) : r.r.c ≤ r1.r.c := by
  unfold readScalars at h
  split at h
  · cases h
  rename_i v1 s1 h1
  have m1 := readT_cursor _ _ _ _ _ _ h1
  try simp only [] at h
  split at h
  · cases h
  rename_i v2 s2 h2
  have m2 := readT_cursor _ _ _ _ _ _ h2
  try simp only [] at h
  split at h
  · cases h
  rename_i v3 s3 h3
  have m3 := readT_cursor _ _ _ _ _ _ h3
  try simp only [] at h
  split at h
  · cases h
  rename_i v4 s4 h4
  have m4 := readT_cursor _ _ _ _ _ _ h4
  try simp only [] at h
  split at h
  · cases h
  rename_i v5 s5 h5
  have m5 := readT_cursor _ _ _ _ _ _ h5
  try simp only [] at h
  split at h
  · cases h
  rename_i v6 s6 h6
  have m6 := readT_cursor _ _ _ _ _ _ h6
  try simp only [] at h
  split at h
  · cases h
  rename_i v7 s7 h7
  have m7 := readT_cursor _ _ _ _ _ _ h7
  try simp only [] at h
  split at h
  · cases h
  rename_i v8 s8 h8
  have m8 := readT_cursor _ _ _ _ _ _ h8
  try simp only [] at h
  split at h
  · cases h
  rename_i v9 s9 h9
  have m9 := readT_cursor _ _ _ _ _ _ h9
  try simp only [] at h
  split at h
  · cases h
  rename_i v10 s10 h10
  have m10 := readT_cursor _ _ _ _ _ _ h10
  try simp only [] at h
  split at h
  · cases h
  rename_i v11 s11 h11
  have m11 := readT_cursor _ _ _ _ _ _ h11
  try simp only [] at h
  split at h
  · cases h
  rename_i v12 s12 h12
  have m12 := readT_cursor _ _ _ _ _ _ h12
  try simp only [] at h
  cases h
  omega

theorem readI8_cursor (r r1 : RBuffer) (v : Int) (h : ReadI8 r = .ret v r1) :
    r.r.c ≤ r1.r.c := by
  unfold ReadI8 at h
  split at h
  · cases h
    exact Nat.le_refl _
  · split at h
    · cases h
      exact Nat.le_refl _
    · cases h
      exact Nat.le_add_right _ _

theorem readFastArray_cursor (size : Nat) (n : Int) (r r1 : RBuffer) (v : List Int)
    (h : readFastArray size n r = .ret v r1) : r.r.c ≤ r1.r.c := by
  unfold readFastArray at h
  split at h
  · cases h
    exact Nat.le_refl _
  · split at h
    · cases h
      exact Nat.le_refl _
    · cases h
      exact Nat.le_add_right _ _

theorem readString_cursor (r r1 : RBuffer) (v : GoString) (h : ReadString r = .ret v r1) :
    r.r.c ≤ r1.r.c := by
  unfold ReadString at h
  split at h
  · cases h
    exact Nat.le_refl _
  · simp only [] at h
    split at h
    · cases h
      exact Nat.le_refl _
    · split at h
      · split at h
        · cases h
          exact Nat.le_refl _
        · split at h
          · cases h
            exact Nat.le_refl _
          · cases h
            show r.r.c ≤ r.r.c + 5 + _
            omega
      · split at h
        · cases h
          exact Nat.le_refl _
        · cases h
          show r.r.c ≤ r.r.c + 1 + _
          omega

theorem readTables_cursor (b b1 : tbranch) (r r1 : RBuffer)
    (h : readTables b r = .ret () (b1, r1)) : r.r.c ≤ r1.r.c := by
  unfold readTables at h
  cases hm : make (0 : Int) b.maxBaskets with
  | none => simp [hm] at h
  | some l =>
    simp only [hm] at h
    cases h1 : ReadI8 r with
    | panic pv s => simp [h1] at h
    | ret v1 s1 =>
      simp only [h1] at h
      have m1 := readI8_cursor _ _ _ h1
      cases h2 : ReadFastArrayI32 b.maxBaskets s1 with
      | panic pv s => simp [h2] at h
      | ret v2 s2 =>
        simp only [h2] at h
        have m2 := readFastArray_cursor _ _ _ _ _ h2
        cases h3 : ReadI8 s2 with
        | panic pv s => simp [h3] at h
        | ret v3 s3 =>
          simp only [h3] at h
          have m3 := readI8_cursor _ _ _ h3
          cases h4 : ReadFastArrayI64 b.maxBaskets s3 with
          | panic pv s => simp [h4] at h
          | ret v4 s4 =>
            simp only [h4] at h
            have m4 := readFastArray_cursor _ _ _ _ _ h4
            cases h5 : ReadI8 s4 with
            | panic pv s => simp [h5] at h
            | ret v5 s5 =>
              simp only [h5] at h
              have m5 := readI8_cursor _ _ _ h5
              cases h6 : ReadFastArrayI64 b.maxBaskets s5 with
              | panic pv s => simp [h6] at h
              | ret v6 s6 =>
                simp only [h6] at h
                have m6 := readFastArray_cursor _ _ _ _ _ h6
                cases h7 : ReadString s6 with
                | panic pv s => simp [h7] at h
                | ret v7 s7 =>
                  simp only [h7] at h
                  have m7 := readString_cursor _ _ _ h7
                  cases h
                  omega

theorem readPreamble_cursor (d : Decoders) (hd : d.Advancing) (b b1 : tbranch)
    (r r1 : RBuffer) (v : Option Error) (h : readPreamble d b r = .ret v (b1, r1)) :
    r.r.c ≤ r1.r.c := by
  unfold readPreamble at h
  cases h1 : d.named b.named r with
  | panic pv s => simp [h1] at h
  | ret e1 s1 =>
    obtain ⟨n1, q1⟩ := s1
    have m1 := hd.1 _ _ _ _ _ h1
    cases e1 with
    | some e =>
      simp only [h1] at h
      cases h
      exact m1
    | none =>
      simp only [h1] at h
      cases h2 : d.attfill b.attfill q1 with
      | panic pv s => simp [h2] at h
      | ret e2 s2 =>
        obtain ⟨a2, q2⟩ := s2
        have m2 := hd.2.1 _ _ _ _ _ h2
        cases e2 with
        | some e =>
          simp only [h2] at h
          cases h
          omega
        | none =>
          simp only [h2] at h
          cases h
          omega

theorem readBranches_cursor (d : Decoders) (hd : d.Advancing) (b b1 : tbranch)
    (r r1 : RBuffer) (v : Option Error) (h : readBranches d b r = .ret v (b1, r1)) :
    r.r.c ≤ r1.r.c := by
  unfold readBranches at h
  cases h1 : d.objarray objarray.zero r with
  | panic pv s => simp [h1] at h
  | ret e1 s1 =>
    obtain ⟨a1, q1⟩ := s1
    have m1 := hd.2.2 _ _ _ _ _ h1
    cases e1 with
    | some e =>
      simp only [h1] at h
      cases h
      exact m1
    | none =>
      simp only [h1] at h
      cases h2 : make tbranch.zero (a1.last + 1) with
      | none => simp [h2] at h
      | some l =>
        simp only [h2] at h
        cases h3 : copyLoop Object.toBranch a1 l.length 0 l with
        | panic pv s => simp [h3] at h
        | ret u l1 =>
          simp only [h3] at h
          cases h
          exact m1

theorem readLeaves_cursor (d : Decoders) (hd : d.Advancing) (b b1 : tbranch)
    (r r1 : RBuffer) (v : Option Error) (h : readLeaves d b r = .ret v (b1, r1)) :
    r.r.c ≤ r1.r.c := by
  unfold readLeaves at h
  cases h1 : d.objarray objarray.zero r with
  | panic pv s => simp [h1] at h
  | ret e1 s1 =>
    obtain ⟨a1, q1⟩ := s1
    have m1 := hd.2.2 _ _ _ _ _ h1
    cases e1 with
    | some e =>
      simp only [h1] at h
      cases h
      exact m1
    | none =>
      simp only [h1] at h
      cases h2 : make Leaf.zero (a1.last + 1) with
      | none => simp [h2] at h
      | some l =>
        simp only [h2] at h
        cases h3 : copyLoop Object.toLeaf a1 l.length 0 l with
        | panic pv s => simp [h3] at h
        | ret u l1 =>
          simp only [h3] at h
          cases h
          exact m1

theorem readBaskets_cursor (d : Decoders) (hd : d.Advancing) (b b1 : tbranch)
    (r r1 : RBuffer) (v : Option Error) (h : readBaskets d b r = .ret v (b1, r1)) :
    r.r.c ≤ r1.r.c := by
  unfold readBaskets at h
  cases h1 : d.objarray objarray.zero r with
  | panic pv s => simp [h1] at h
  | ret e1 s1 =>
    obtain ⟨a1, q1⟩ := s1
    have m1 := hd.2.2 _ _ _ _ _ h1
    cases e1 with
    | some e =>
      simp only [h1] at h
      cases h
      exact m1
    | none =>
      simp only [h1] at h
      cases h2 : make Basket.zero (a1.last + 1) with
      | none => simp [h2] at h
      | some l =>
        simp only [h2] at h
        cases h3 : copyLoop Object.toBasket a1 l.length 0 l with
        | panic pv s => simp [h3] at h
        | ret u l1 =>
          simp only [h3] at h
          cases h
          exact m1

theorem readObjArrays_cursor (d : Decoders) (hd : d.Advancing) (b b1 : tbranch)
    (r r1 : RBuffer) (v : Option Error) (h : readObjArrays d b r = .ret v (b1, r1)) :
    r.r.c ≤ r1.r.c := by
  unfold readObjArrays at h
  cases h1 : readBranches d b r with
  | panic pv s => simp [h1] at h
  | ret e1 s1 =>
    obtain ⟨x1, q1⟩ := s1
    have m1 := readBranches_cursor d hd _ _ _ _ _ h1
    cases e1 with
    | some e =>
      simp only [h1] at h
      cases h
      exact m1
    | none =>
      simp only [h1] at h
      cases h2 : readLeaves d x1 q1 with
      | panic pv s => simp [h2] at h
      | ret e2 s2 =>
        obtain ⟨x2, q2⟩ := s2
        have m2 := readLeaves_cursor d hd _ _ _ _ _ h2
        cases e2 with
        | some e =>
          simp only [h2] at h
          cases h
          omega
        | none =>
          simp only [h2] at h
          have m3 := readBaskets_cursor d hd _ _ _ _ _ h
          omega

/-- A class header read on a buffer with no error takes six bytes. -/
theorem readVersion_cursor (r r1 : RBuffer) (x : Nat × Int × Nat) (herr : r.err = none)
    (h : ReadVersion r = .ret x r1) : r1.r.c = r.r.c + 6 := by
  unfold ReadVersion at h
  rw [if_neg (by simp [herr])] at h
  simp only [] at h
  cases h1 : ReadU32 r with
  | panic pv s => simp [h1] at h
  | ret raw s1 =>
    simp only [h1] at h
    have e1 := readT_ret _ _ _ _ _ _ herr h1
    cases h2 : ReadU16 s1 with
    | panic pv s => simp [h2] at h
    | ret vers s2 =>
      simp only [h2] at h
      have e2 := readT_ret _ _ _ _ _ _ (by rw [e1]) h2
      cases h
      rw [e2, e1]
      simp [Width.size]

/-- C4: whenever `tbranch.UnmarshalROOT` returns nil, the run went through the
class header `(vers, pos, bcnt)`, the preambles, the scalar block, the object
arrays and the basket tables with `fname`, and the cursor after reading
`fname` equals `pos + bcnt`, where `pos` is the position right after the
four-byte count word `raw` and `bcnt` is what `ReadVersion` takes from `raw`:
its low 30 bits when the byte-count flag is set, and always its low 30 bits
when the decoders only move the cursor forward. Conversely, when all the
reads succeed and the cursor after `fname` differs from `pos + bcnt`,
`UnmarshalROOT` returns the non-nil `ProtocolError` of context `"TBranch"`. -/
theorem C4_byte_count_check (d : Decoders) (b : tbranch) (r : RBuffer) :
    (∀ (b' : tbranch) (r' : RBuffer), UnmarshalROOT d b r = .ret none (b', r') →
        ∃ (vers : Nat) (pos : Int) (bcnt raw : Nat) (r0 r1 r2 r3 r4 : RBuffer)
          (b1 b2 b3 b4 : tbranch),
          ReadU32 r = .ret raw r0
            ∧ ReadVersion r = .ret (vers, pos, bcnt) r1
            ∧ pos = r.Pos + 4
            ∧ (bcnt = if raw &&& 0x40000000 ≠ 0 then raw &&& 0x3FFFFFFF else 0)
            ∧ (d.Advancing → bcnt = raw % 2 ^ 30)
            ∧ readPreamble d
                { b with tree := none, currbasket := none, firstbasket := -1, nextbasket := -1 }
                r1 = .ret none (b1, r2)
            ∧ readScalars b1 r2 = .ret () (b2, r3)
            ∧ readObjArrays d b2 r3 = .ret none (b3, r4)
            ∧ readTables b3 r4 = .ret () (b4, r')
            ∧ r'.Pos = pos + (bcnt : Int))
      ∧ (∀ (vers : Nat) (pos : Int) (bcnt : Nat) (r1 r2 r3 r4 r5 : RBuffer)
          (b1 b2 b3 b4 : tbranch),
          r.err = none → ReadVersion r = .ret (vers, pos, bcnt) r1 → 12 ≤ vers →
          readPreamble d
              { b with tree := none, currbasket := none, firstbasket := -1, nextbasket := -1 }
              r1 = .ret none (b1, r2) →
          readScalars b1 r2 = .ret () (b2, r3) →
          readObjArrays d b2 r3 = .ret none (b3, r4) →
          readTables b3 r4 = .ret () (b4, r5) →
          r5.err = none → r5.Pos ≠ pos + (bcnt : Int) →
          ∃ b' : tbranch, UnmarshalROOT d b r
            = .ret (some (.ProtocolError "TBranch" (pos + (bcnt : Int)) r5.Pos))
                (b', { r5 with
                        err := some (.ProtocolError "TBranch" (pos + (bcnt : Int)) r5.Pos) })) := by
  constructor
  · intro b' r' h
    have herr : r.err = none := by
      by_contra hne
      unfold UnmarshalROOT RBuffer.Err at h
      rw [if_pos hne] at h
      simp only [Exec.ret.injEq] at h
      exact hne h.1
    unfold UnmarshalROOT RBuffer.Err at h
    rw [if_neg (by simp [herr])] at h
    simp only [] at h
    cases hv : ReadVersion r with
    | panic pv s => simp [hv] at h
    | ret x r1 =>
      obtain ⟨vers, pos, bcnt⟩ := x
      simp only [hv] at h
      by_cases h12 : vers < 12
      · rw [if_pos h12] at h
        cases h
      · rw [if_neg h12] at h
        cases hp : readPreamble d
            { b with tree := none, currbasket := none, firstbasket := -1, nextbasket := -1 }
            r1 with
        | panic pv s => simp [hp] at h
        | ret e1 s1 =>
          obtain ⟨b1, r2⟩ := s1
          cases e1 with
          | some e => simp [hp] at h
          | none =>
            simp only [hp] at h
            cases hs : readScalars b1 r2 with
            | panic pv s => simp [hs] at h
            | ret u s2 =>
              obtain ⟨b2, r3⟩ := s2
              simp only [hs, decodeRest] at h
              cases ha : readObjArrays d b2 r3 with
              | panic pv s => simp [ha] at h
              | ret e3 s3 =>
                obtain ⟨b3, r4⟩ := s3
                cases e3 with
                | some e => simp [ha] at h
                | none =>
                  simp only [ha] at h
                  cases ht : readTables b3 r4 with
                  | panic pv s => simp [ht] at h
                  | ret u4 s4 =>
                    obtain ⟨b4, r5⟩ := s4
                    simp only [ht] at h
                    obtain ⟨e5, herr5, hpos5⟩ := finish_nil _ _ _ _ _ _ _ h
                    subst e5
                    obtain ⟨hpos, raw, r0, h32, hb⟩ := readVersion_header r r1 vers pos bcnt herr hv
                    refine ⟨vers, pos, bcnt, raw, r0, r1, r2, r3, r4, b1, b2, b3, b4, h32, rfl,
                      hpos, hb, ?_, hp, hs, ha, ht, hpos5⟩
                    intro hd
                    have c1 := readVersion_cursor r r1 _ herr hv
                    have c2 := readPreamble_cursor d hd _ _ _ _ _ hp
                    have c3 := readScalars_cursor _ _ _ _ hs
                    have c4 := readObjArrays_cursor d hd _ _ _ _ _ ha
                    have c5 := readTables_cursor _ _ _ _ ht
                    have hflag : raw &&& 0x40000000 ≠ 0 := by
                      intro h0
                      rw [if_neg (by simp [h0])] at hb
                      unfold RBuffer.Pos at hpos hpos5
                      omega
                    rw [if_pos hflag] at hb
                    rw [hb]
                    exact Nat.and_pow_two_sub_one_eq_mod raw 30
  · intro vers pos bcnt r1 r2 r3 r4 r5 b1 b2 b3 b4 herr hver h12 hpre hsc harr htab herr5 hpos
    rw [unmarshal_past_arrays d b b1 b2 b3 r r1 r2 r3 r4 vers pos bcnt herr hver h12 hpre hsc
      harr, htab]
    exact (finish_check pos bcnt r.Pos b4 r5 herr5).2 hpos

theorem sampleElements_cursor :
    ∀ (k : Nat) (acc acc1 : List Object) (r r1 : RBuffer),
      sampleElements k acc r = .ret () (acc1, r1) → r.r.c ≤ r1.r.c := by
  intro k
  induction k with
  | zero =>
    intro acc acc1 r r1 h
    cases h
    exact Nat.le_refl _
  | succ k ih =>
    intro acc acc1 r r1 h
    unfold sampleElements at h
    cases h1 : ReadI8 r with
    | panic pv s => simp [h1] at h
    | ret tag s1 =>
      simp only [h1] at h
      have m1 := readI8_cursor _ _ _ h1
      split at h
      · cases h
        exact m1
      · split at h
        · exact Nat.le_trans m1 (ih _ _ _ _ h)
        · split at h
          · exact Nat.le_trans m1 (ih _ _ _ _ h)
          · split at h
            · exact Nat.le_trans m1 (ih _ _ _ _ h)
            · cases h
              exact m1

/-- The sample decoders only move the cursor forward. -/
theorem sampleDecoders_advancing : sampleDecoders.Advancing := by
  refine ⟨?_, ?_, ?_⟩
  · intro n r v n1 r1 h
    simp only [sampleDecoders, sampleNamed] at h
    cases h1 : ReadString r with
    | panic pv s => simp [h1] at h
    | ret x1 s1 =>
      simp only [h1] at h
      have m1 := readString_cursor _ _ _ h1
      cases h2 : ReadString s1 with
      | panic pv s => simp [h2] at h
      | ret x2 s2 =>
        simp only [h2] at h
        have m2 := readString_cursor _ _ _ h2
        cases h
        omega
  · intro a r v a1 r1 h
    simp only [sampleDecoders, sampleAttfill] at h
    cases h1 : ReadI16 r with
    | panic pv s => simp [h1] at h
    | ret x1 s1 =>
      simp only [h1] at h
      have m1 := readT_cursor _ _ _ _ _ _ h1
      cases h2 : ReadI16 s1 with
      | panic pv s => simp [h2] at h
      | ret x2 s2 =>
        simp only [h2] at h
        have m2 := readT_cursor _ _ _ _ _ _ h2
        cases h
        omega
  · intro a r v a1 r1 h
    simp only [sampleDecoders, sampleObjarray] at h
    cases h1 : ReadI32 r with
    | panic pv s => simp [h1] at h
    | ret x1 s1 =>
      simp only [h1] at h
      have m1 := readT_cursor _ _ _ _ _ _ h1
      cases h2 : sampleElements (x1 + 1).toNat [] s1 with
      | panic pv s => simp [h2] at h
      | ret u s2 =>
        obtain ⟨arr, q⟩ := s2
        simp only [h2] at h
        have m2 := sampleElements_cursor _ _ _ _ _ h2
        cases h
        omega

set_option maxRecDepth 100000 in
theorem C4_byte_count_check_witness :
    (∃ (pos : Int) (bcnt : Nat),
        RBuffer.Pos ⟨⟨samplePayload, 118⟩, none⟩ = pos + (bcnt : Int)
          ∧ pos = 4 ∧ bcnt = 0x40000072 % 2 ^ 30)
      ∧ ∃ b' : tbranch,
          UnmarshalROOT sampleDecoders tbranch.zero
              ⟨⟨[0x40, 0, 0, 115, 0, 12] ++ samplePayload.drop 6, 0⟩, none⟩
            = .ret (some (.ProtocolError "TBranch" 119 118))
                (b', ⟨⟨[0x40, 0, 0, 115, 0, 12] ++ samplePayload.drop 6, 118⟩,
                  some (.ProtocolError "TBranch" 119 118)⟩) := by
  constructor
  · obtain ⟨vers, pos, bcnt, raw, r0, r1, r2, r3, r4, b1, b2, b3, b4, h32, hv, hpos, hb, hadv,
        _, _, _, _, hend⟩ :=
      (C4_byte_count_check sampleDecoders tbranch.zero ⟨⟨samplePayload, 0⟩, none⟩).1
        { tbranch.zero with
            named := ⟨[0x70, 0x78], []⟩, firstbasket := -1, nextbasket := -1, maxBaskets := 1,
            basketBytes := [100], basketEntry := [0], basketSeek := [4096] }
        ⟨⟨samplePayload, 118⟩, none⟩ rfl
    have hraw : raw = 0x40000072 := by
      have h32' : ReadU32 ⟨⟨samplePayload, 0⟩, none⟩
          = .ret 0x40000072 ⟨⟨samplePayload, 4⟩, none⟩ := by decide
      rw [h32'] at h32
      cases h32
      rfl
    refine ⟨pos, bcnt, hend, ?_, ?_⟩
    · rw [hpos]
      rfl
    · rw [hadv sampleDecoders_advancing, hraw]
  · exact (C4_byte_count_check sampleDecoders tbranch.zero
        ⟨⟨[0x40, 0, 0, 115, 0, 12] ++ samplePayload.drop 6, 0⟩, none⟩).2
      12 4 115 ⟨⟨[0x40, 0, 0, 115, 0, 12] ++ samplePayload.drop 6, 6⟩, none⟩
      ⟨⟨[0x40, 0, 0, 115, 0, 12] ++ samplePayload.drop 6, 14⟩, none⟩
      ⟨⟨[0x40, 0, 0, 115, 0, 12] ++ samplePayload.drop 6, 82⟩, none⟩
      ⟨⟨[0x40, 0, 0, 115, 0, 12] ++ samplePayload.drop 6, 94⟩, none⟩
      ⟨⟨[0x40, 0, 0, 115, 0, 12] ++ samplePayload.drop 6, 118⟩, none⟩
      { tbranch.zero with named := ⟨[0x70, 0x78], []⟩, firstbasket := -1, nextbasket := -1 }
      { tbranch.zero with
          named := ⟨[0x70, 0x78], []⟩, firstbasket := -1, nextbasket := -1, maxBaskets := 1 }
      { tbranch.zero with
          named := ⟨[0x70, 0x78], []⟩, firstbasket := -1, nextbasket := -1, maxBaskets := 1 }
      { tbranch.zero with
          named := ⟨[0x70, 0x78], []⟩, firstbasket := -1, nextbasket := -1, maxBaskets := 1,
          basketBytes := [100], basketEntry := [0], basketSeek := [4096] }
      rfl rfl (by decide) rfl rfl rfl rfl rfl (by decide)

/-! ## The readers compared with one another -/

theorem readT_map {α : Type} (w : Width) (conv : Nat → α) (zero : α) (hz : conv 0 = zero)
    (r : RBuffer) : readT w conv zero r = Exec.map conv (readT w id 0 r) := by
  unfold readT
  split
  · simp [Exec.map, hz]
  · simp only []
    split
    · rfl
    · split <;> rfl

/-- C17: from every buffer state, `ReadI16`, `ReadI32` and `ReadI64` return the
two's-complement reading of what `ReadU16`, `ReadU32` and `ReadU64` return,
`ReadF32` and `ReadF64` return the float whose IEEE-754 bits are what `ReadU32`
and `ReadU64` return, and in each pair the buffer ends in the same state (also
when the read panics); the bytes `FF FF` read as `i16` give `-1` and as `u16`
give `65535`. -/
theorem C17_signed_and_float_readers_follow_unsigned (r : RBuffer) :
    ReadI16 r = Exec.map (toSigned 16) (ReadU16 r)
      ∧ ReadI32 r = Exec.map (toSigned 32) (ReadU32 r)
      ∧ ReadI64 r = Exec.map (toSigned 64) (ReadU64 r)
      ∧ ReadF32 r = Exec.map Float32frombits (ReadU32 r)
      ∧ ReadF64 r = Exec.map Float64frombits (ReadU64 r)
      ∧ ReadI16 ⟨⟨[0xFF, 0xFF], 0⟩, none⟩ = .ret (-1) ⟨⟨[0xFF, 0xFF], 2⟩, none⟩
      ∧ ReadU16 ⟨⟨[0xFF, 0xFF], 0⟩, none⟩ = .ret 65535 ⟨⟨[0xFF, 0xFF], 2⟩, none⟩ :=
  ⟨readT_map .w16 (toSigned 16) 0 (by decide) r, readT_map .w32 (toSigned 32) 0 (by decide) r,
    readT_map .w64 (toSigned 64) 0 (by decide) r, readT_map .w32 Float32frombits ⟨0⟩ rfl r,
    readT_map .w64 Float64frombits ⟨0⟩ rfl r, by decide, by decide⟩

/-- The element-by-element loop over a buffer that is long enough. -/
theorem scalarLoop_ok (T : ElemT) (p : List Byte) (c0 : Nat) :
    ∀ (k i : Nat) (dst : List T.Go), c0 + T.size * (i + k) ≤ p.length → i + k ≤ dst.length →
      ∃ dst1, scalarLoop T k i dst ⟨⟨p, c0 + T.size * i⟩, none⟩
          = .ret () (dst1, ⟨⟨p, c0 + T.size * (i + k)⟩, none⟩)
        ∧ dst1.length = dst.length
        ∧ (∀ j, i ≤ j → j < i + k →
            dst1[j]? = some (T.ofWord (beNat p (c0 + T.size * j) T.size)))
        ∧ (∀ j, j < i → dst1[j]? = dst[j]?) := by
  intro k
  induction k with
  | zero =>
    intro i dst _ _
    exact ⟨dst, rfl, rfl, fun j h1 h2 => absurd h2 (by omega), fun _ _ => rfl⟩
  | succ k ih =>
    intro i dst hp hdst
    have hs : c0 + T.size * i + T.size ≤ p.length := by
      have : T.size * (i + (k + 1)) = T.size * i + T.size + T.size * k := by ring
      omega
    have hread : Read T ⟨⟨p, c0 + T.size * i⟩, none⟩
        = .ret (T.ofWord (beNat p (c0 + T.size * i) T.size))
            ⟨⟨p, c0 + T.size * (i + 1)⟩, none⟩ := by
      rw [read_eq_readT, readT_ok _ _ _ _ rfl hs]
      simp only [ElemT.size]
      rw [show c0 + T.width.size * i + T.width.size = c0 + T.width.size * (i + 1) by ring]
    obtain ⟨dst1, h1, h2, h3, h4⟩ :=
      ih (i + 1) (dst.set i (T.ofWord (beNat p (c0 + T.size * i) T.size)))
        (by rw [show i + 1 + k = i + (k + 1) by omega]; exact hp)
        (by rw [List.length_set]; omega)
    refine ⟨dst1, ?_, ?_, ?_, ?_⟩
    · simp only [scalarLoop, hread]
      rw [show i + (k + 1) = i + 1 + k by omega]
      exact h1
    · rw [h2, List.length_set]
    · intro j hj1 hj2
      rcases Nat.eq_or_lt_of_le hj1 with heq | hlt
      · subst heq
        rw [h4 i (by omega), List.getElem?_set_self (by omega)]
      · exact h3 j (by omega) (by omega)
    · intro j hj
      rw [h4 j (by omega), List.getElem?_set_ne (by omega)]

/-- C18: with no error and at least `sizeof(T) * len(dst)` bytes after the
cursor, `ReadArrayT(dst)` gives the same destination contents and the same
final buffer state as the loop `for i := range dst { dst[i] = r.ReadT() }` run
from the same initial state. -/
theorem C18_read_array_is_scalar_loop (T : ElemT) (dst : List T.Go) (r : RBuffer)
    (herr : r.err = none) (hlen : r.r.c + T.size * dst.length ≤ r.r.p.length) :
    ReadArray T dst r = scalarLoop T dst.length 0 dst r := by
  obtain ⟨a, ha, hal, hae, _⟩ := readArrayT_ok T.width T.ofWord dst r herr hlen
  obtain ⟨⟨p, c⟩, e⟩ := r
  simp only at herr hlen ha hae
  subst herr
  obtain ⟨l, hl, hll, hle, _⟩ :=
    scalarLoop_ok T p c dst.length 0 dst (by rw [Nat.zero_add]; exact hlen) (by omega)
  rw [Nat.mul_zero, Nat.add_zero, Nat.zero_add] at hl
  rw [readArray_eq_readArrayT, ha, hl]
  have hal' : a = l := by
    apply List.ext_getElem?
    intro j
    by_cases hj : j < dst.length
    · rw [hae j hj, hle j (by omega) (by omega)]
      rfl
    · rw [List.getElem?_eq_none (by omega), List.getElem?_eq_none (by omega)]
  rw [hal']
  rfl

theorem C18_read_array_is_scalar_loop_witness :
    ReadArrayU16 [0, 0] ⟨⟨[1, 2, 3, 4, 5], 1⟩, none⟩
        = scalarLoop .U16 2 0 ([0, 0] : List Nat) ⟨⟨[1, 2, 3, 4, 5], 1⟩, none⟩
      ∧ scalarLoop .U16 2 0 ([0, 0] : List Nat) ⟨⟨[1, 2, 3, 4, 5], 1⟩, none⟩
        = .ret () (([0x0203, 0x0405] : List Nat), ⟨⟨[1, 2, 3, 4, 5], 5⟩, none⟩) :=
  ⟨C18_read_array_is_scalar_loop .U16 ([0, 0] : List Nat) ⟨⟨[1, 2, 3, 4, 5], 1⟩, none⟩ rfl
    (by decide), rfl⟩

/-! ## The basket tables -/

theorem readI8_ok (p : List Byte) (c : Nat) (h : c < p.length) :
    ReadI8 ⟨⟨p, c⟩, none⟩ = .ret (toSigned 8 (p.getD c 0).val) ⟨⟨p, c + 1⟩, none⟩ := by
  unfold ReadI8
  rw [if_neg (by simp)]
  simp only [List.getElem?_eq_getElem h, List.getD_eq_getElem?_getD, Option.getD_some]

theorem readFastArray_ok (size : Nat) (n : Int) (p : List Byte) (c : Nat)
    (h : c + size * n.toNat ≤ p.length) :
    readFastArray size n ⟨⟨p, c⟩, none⟩
      = .ret ((List.range n.toNat).map fun i => toSigned (8 * size) (beNat p (c + size * i) size))
          ⟨⟨p, c + size * n.toNat⟩, none⟩ := by
  unfold readFastArray
  rw [if_neg (by simp), if_neg (by simp only []; omega)]

theorem copy_same_length {α : Type} (dst src : List α) (h : src.length = dst.length) :
    copy dst src = src := by
  unfold copy
  rw [← h, List.take_length, List.drop_eq_nil_of_le (by omega), List.append_nil]

/-- The basket tables read from a buffer with no error that holds the three
marker bytes and the three tables. -/
theorem readTables_ok (b : tbranch) (p : List Byte) (c n : Nat) (hn : b.maxBaskets = (n : Int))
    (hlen : c + 3 + 20 * n ≤ p.length) (s : GoString) (r1 : RBuffer)
    (hs : ReadString ⟨⟨p, c + 3 + 20 * n⟩, none⟩ = .ret s r1) :
    readTables b ⟨⟨p, c⟩, none⟩
      = .ret ()
          ({ b with
              basketBytes := (List.range n).map fun i => toSigned 32 (beNat p (c + 1 + 4 * i) 4)
              basketEntry := List.replicate n 0
              basketSeek :=
                (List.range n).map fun i => toSigned 64 (beNat p (c + 3 + 12 * n + 8 * i) 8)
              fname := s },
            r1) := by
  have hm : make (0 : Int) b.maxBaskets = some (List.replicate n 0) := by
    rw [make_of_nonneg _ _ (by omega), hn, Int.toNat_ofNat]
  have hnn : b.maxBaskets.toNat = n := by rw [hn, Int.toNat_ofNat]
  unfold readTables
  simp only [hm]
  rw [readI8_ok p c (by omega)]
  simp only [ReadFastArrayI32, ReadFastArrayI64]
  rw [readFastArray_ok 4 _ p (c + 1) (by omega), hnn]
  simp only []
  rw [readI8_ok p (c + 1 + 4 * n) (by omega)]
  simp only []
  rw [readFastArray_ok 8 _ p (c + 1 + 4 * n + 1) (by omega), hnn]
  simp only []
  rw [readI8_ok p (c + 1 + 4 * n + 1 + 8 * n) (by omega)]
  simp only []
  rw [readFastArray_ok 8 _ p (c + 1 + 4 * n + 1 + 8 * n + 1) (by omega), hnn]
  simp only []
  rw [show c + 1 + 4 * n + 1 + 8 * n + 1 + 8 * n = c + 3 + 20 * n by omega, hs]
  simp only []
  rw [copy_same_length _ _ (by simp), copy_same_length _ _ (by simp)]
  rw [show c + 1 + 4 * n + 1 + 8 * n + 1 = c + 3 + 12 * n by omega]

/-- The basket tables of the example region, whatever the marker bytes. -/
theorem readTables_example (m1 m2 m3 : Byte) :
    readTables { tbranch.zero with maxBaskets := 2 } ⟨⟨tablesRegion m1 m2 m3, 0⟩, none⟩
      = .ret ()
          ({ tbranch.zero with
              maxBaskets := 2, basketBytes := [100, 200], basketEntry := [0, 0],
              basketSeek := [0x1000, 0x2000] },
            ⟨⟨tablesRegion m1 m2 m3, 44⟩, none⟩) := by
  rw [readTables_ok _ _ 0 2 rfl (by simp [tablesRegion]) [] ⟨⟨tablesRegion m1 m2 m3, 44⟩, none⟩
    (by simp [ReadString, tablesRegion])]
  simp [tbranch.zero, List.range, List.range.loop, beNat, Finset.sum_range_succ, toSigned,
    tablesRegion]
  decide

/-- C11: on a payload that is decoded without error up to and including the
three object arrays, with decoded `maxBaskets = n >= 0` and with the three
markers and tables in the buffer, `tbranch.UnmarshalROOT` reads one marker byte
that it drops, `n` big-endian `i32` that become `basketBytes`, a second dropped
marker byte, `n` `i64`, a third dropped marker byte, `n` big-endian `i64` that
become `basketSeek`, and then `fname`, which starts `3 + 20 * n` bytes after the
object arrays; for `n = 2` and the tables `[100, 200]` and `[0x1000, 0x2000]`
the result is `basketBytes = [100, 200]` and `basketSeek = [0x1000, 0x2000]`
whatever the three marker bytes are. -/
theorem C11_basket_tables_layout (d : Decoders) (b b1 b2 b3 : tbranch)
    (r r1 r2 r3 r4 r5 : RBuffer) (vers : Nat) (pos : Int) (bcnt n : Nat) (s : GoString)
    (herr : r.err = none) (hver : ReadVersion r = .ret (vers, pos, bcnt) r1) (h12 : 12 ≤ vers)
    (hpre : readPreamble d
        { b with tree := none, currbasket := none, firstbasket := -1, nextbasket := -1 } r1
      = .ret none (b1, r2))
    (hsc : readScalars b1 r2 = .ret () (b2, r3))
    (harr : readObjArrays d b2 r3 = .ret none (b3, r4))
    (hn : b2.maxBaskets = (n : Int)) (herr4 : r4.err = none)
    (hlen : r4.r.c + 3 + 20 * n ≤ r4.r.p.length)
    (hs : ReadString ⟨⟨r4.r.p, r4.r.c + 3 + 20 * n⟩, none⟩ = .ret s r5) :
    readTables b3 r4
        = .ret ()
            ({ b3 with
                basketBytes :=
                  (List.range n).map fun i => toSigned 32 (beNat r4.r.p (r4.r.c + 1 + 4 * i) 4)
                basketEntry := List.replicate n 0
                basketSeek :=
                  (List.range n).map fun i =>
                    toSigned 64 (beNat r4.r.p (r4.r.c + 3 + 12 * n + 8 * i) 8)
                fname := s },
              r5)
      ∧ UnmarshalROOT d b r
        = finish pos bcnt r.Pos
            { b3 with
                basketBytes :=
                  (List.range n).map fun i => toSigned 32 (beNat r4.r.p (r4.r.c + 1 + 4 * i) 4)
                basketEntry := List.replicate n 0
                basketSeek :=
                  (List.range n).map fun i =>
                    toSigned 64 (beNat r4.r.p (r4.r.c + 3 + 12 * n + 8 * i) 8)
                fname := s }
            r5
      ∧ ∀ m1 m2 m3 : Byte,
          readTables { tbranch.zero with maxBaskets := 2 } ⟨⟨tablesRegion m1 m2 m3, 0⟩, none⟩
            = .ret ()
                ({ tbranch.zero with
                    maxBaskets := 2, basketBytes := [100, 200], basketEntry := [0, 0],
                    basketSeek := [0x1000, 0x2000] },
                  ⟨⟨tablesRegion m1 m2 m3, 44⟩, none⟩) := by
  have h3 : b3.maxBaskets = (n : Int) := by
    have := readObjArrays_maxBaskets d b2 r3
    rw [harr] at this
    exact this.trans hn
  have hr4 : r4 = ⟨⟨r4.r.p, r4.r.c⟩, none⟩ := by
    obtain ⟨⟨p, c⟩, e⟩ := r4
    simp only at herr4
    subst herr4
    rfl
  have ht := readTables_ok b3 r4.r.p r4.r.c n h3 hlen s r5 hs
  rw [← hr4] at ht
  refine ⟨ht, ?_, readTables_example⟩
  rw [unmarshal_past_arrays d b b1 b2 b3 r r1 r2 r3 r4 vers pos bcnt herr hver h12 hpre hsc harr,
    ht]

set_option maxRecDepth 100000 in
theorem C11_basket_tables_layout_witness :
    (readTables
        { tbranch.zero with
          named := ⟨[0x70, 0x78], []⟩, firstbasket := -1, nextbasket := -1, maxBaskets := 1 }
        ⟨⟨samplePayload, 94⟩, none⟩).state.1.basketBytes = [100]
      ∧ (readTables
        { tbranch.zero with
          named := ⟨[0x70, 0x78], []⟩, firstbasket := -1, nextbasket := -1, maxBaskets := 1 }
        ⟨⟨samplePayload, 94⟩, none⟩).state.1.basketSeek = [0x1000]
      ∧ (readTables
        { tbranch.zero with
          named := ⟨[0x70, 0x78], []⟩, firstbasket := -1, nextbasket := -1, maxBaskets := 1 }
        ⟨⟨samplePayload, 94⟩, none⟩).state.2 = ⟨⟨samplePayload, 118⟩, none⟩ := by
  have h := (C11_basket_tables_layout sampleDecoders tbranch.zero
    { tbranch.zero with named := ⟨[0x70, 0x78], []⟩, firstbasket := -1, nextbasket := -1 }
    { tbranch.zero with
        named := ⟨[0x70, 0x78], []⟩, firstbasket := -1, nextbasket := -1, maxBaskets := 1 }
    { tbranch.zero with
        named := ⟨[0x70, 0x78], []⟩, firstbasket := -1, nextbasket := -1, maxBaskets := 1 }
    ⟨⟨samplePayload, 0⟩, none⟩ ⟨⟨samplePayload, 6⟩, none⟩ ⟨⟨samplePayload, 14⟩, none⟩
    ⟨⟨samplePayload, 82⟩, none⟩ ⟨⟨samplePayload, 94⟩, none⟩ ⟨⟨samplePayload, 118⟩, none⟩
    12 4 114 1 [] rfl rfl (by decide) rfl rfl rfl rfl rfl (Nat.le_of_ble_eq_true rfl) rfl).1
  rw [h]
  exact ⟨rfl, rfl, rfl⟩

/-! ## What the stages of `UnmarshalROOT` leave alone -/

theorem readPreamble_readState (d : Decoders) (b : tbranch) (r : RBuffer) :
    (readPreamble d b r).state.1.readState = b.readState := by
  unfold readPreamble
  split
  · rfl
  · rfl
  · simp only []
    split <;> rfl

theorem readScalars_readState (b : tbranch) (r : RBuffer) :
    (readScalars b r).state.1.readState = b.readState := by
  unfold readScalars
  repeat' split
  all_goals rfl

theorem readBranches_readState (d : Decoders) (b : tbranch) (r : RBuffer) :
    (readBranches d b r).state.1.readState = b.readState := by
  unfold readBranches
  split
  · rfl
  · rfl
  · split
    · rfl
    · simp only []
      generalize copyLoop _ _ _ _ _ = o
      cases o <;> rfl

theorem readLeaves_readState (d : Decoders) (b : tbranch) (r : RBuffer) :
    (readLeaves d b r).state.1.readState = b.readState := by
  unfold readLeaves
  split
  · rfl
  · rfl
  · split
    · rfl
    · simp only []
      generalize copyLoop _ _ _ _ _ = o
      cases o <;> rfl

theorem readBaskets_readState (d : Decoders) (b : tbranch) (r : RBuffer) :
    (readBaskets d b r).state.1.readState = b.readState := by
  unfold readBaskets
  split
  · rfl
  · rfl
  · split
    · rfl
    · simp only []
      generalize copyLoop _ _ _ _ _ = o
      cases o <;> rfl

theorem readObjArrays_readState (d : Decoders) (b : tbranch) (r : RBuffer) :
    (readObjArrays d b r).state.1.readState = b.readState := by
  unfold readObjArrays
  have h1 := readBranches_readState d b r
  cases hb : readBranches d b r with
  | panic pv s => rw [hb] at h1; exact h1
  | ret e s =>
    obtain ⟨b1, r1⟩ := s
    rw [hb] at h1
    cases e with
    | some e => exact h1
    | none =>
      simp only []
      have h2 := readLeaves_readState d b1 r1
      cases hl : readLeaves d b1 r1 with
      | panic pv s => rw [hl] at h2; exact h2.trans h1
      | ret e s =>
        obtain ⟨b2, r2⟩ := s
        rw [hl] at h2
        cases e with
        | some e => exact h2.trans h1
        | none => exact (readBaskets_readState d b2 r2).trans (h2.trans h1)

theorem readTables_readState (b : tbranch) (r : RBuffer) :
    (readTables b r).state.1.readState = b.readState := by
  unfold readTables
  repeat' (first | rfl | split | simp only [])

theorem finish_readState (pos : Int) (bcnt : Nat) (beg : Int) (b : tbranch) (r : RBuffer) :
    (finish pos bcnt beg b r).state.1.readState = b.readState := by
  unfold finish
  repeat' split
  all_goals rfl

theorem decodeRest_readState (d : Decoders) (pos : Int) (bcnt : Nat) (beg : Int) (b : tbranch)
    (r : RBuffer) : (decodeRest d pos bcnt beg b r).state.1.readState = b.readState := by
  unfold decodeRest
  have h1 := readObjArrays_readState d b r
  cases ha : readObjArrays d b r with
  | panic pv s => rw [ha] at h1; exact h1
  | ret e s =>
    obtain ⟨b1, r1⟩ := s
    rw [ha] at h1
    cases e with
    | some e => exact h1
    | none =>
      simp only []
      have h2 := readTables_readState b1 r1
      cases ht : readTables b1 r1 with
      | panic pv s => rw [ht] at h2; exact h2.trans h1
      | ret u s =>
        obtain ⟨b2, r2⟩ := s
        rw [ht] at h2
        exact (finish_readState pos bcnt beg b2 r2).trans (h2.trans h1)

/-- Once the class header has been read, whatever happens next, the receiver
ends with `tree` and `currbasket` nil, `firstbasket` and `nextbasket` at `-1`, and
with `readbasket`, `readentry`, `mother`, `parent` and `dir` as before the call. -/
theorem unmarshal_readState (d : Decoders) (b : tbranch) (r r1 : RBuffer)
    (x : Nat × Int × Nat) (herr : r.err = none) (hver : ReadVersion r = .ret x r1) :
    (UnmarshalROOT d b r).state.1.readState
      = (b.readbasket, b.readentry, -1, -1, none, none, b.mother, b.parent, b.dir) := by
  obtain ⟨vers, pos, bcnt⟩ := x
  unfold UnmarshalROOT RBuffer.Err
  rw [if_neg (by simp [herr]), hver]
  simp only []
  split
  · rfl
  · have h1 := readPreamble_readState d
      { b with tree := none, currbasket := none, firstbasket := -1, nextbasket := -1 } r1
    cases hp : readPreamble d
        { b with tree := none, currbasket := none, firstbasket := -1, nextbasket := -1 } r1 with
    | panic pv s => rw [hp] at h1; exact h1
    | ret e s =>
      obtain ⟨b1, r2⟩ := s
      rw [hp] at h1
      cases e with
      | some e => exact h1
      | none =>
        simp only []
        have h2 := readScalars_readState b1 r2
        cases hs : readScalars b1 r2 with
        | panic pv s => rw [hs] at h2; exact h2.trans h1
        | ret u s =>
          obtain ⟨b2, r3⟩ := s
          rw [hs] at h2
          exact (decodeRest_readState d pos bcnt r.Pos b2 r3).trans (h2.trans h1)

theorem readTables_entry (b : tbranch) (r : RBuffer) (h : 0 ≤ b.maxBaskets) :
    (readTables b r).state.1.basketEntry = List.replicate b.maxBaskets.toNat 0 := by
  unfold readTables
  simp only [make_of_nonneg _ _ h]
  repeat' split
  all_goals rfl

/-- C12: after a call of `tbranch.UnmarshalROOT` that gets past the three object
arrays with a decoded `maxBaskets = n >= 0`, whether it then returns or panics,
`basketEntry` is a sequence of `n` zeros; and when the three markers and tables
are in the buffer the decoder does pass over the `n` `i64` of the entry table
(`fname` is read `3 + 20 * n` bytes after the object arrays) while `basketEntry`
is still `n` zeros, whatever the bytes of that table are. -/
theorem C12_basket_entry_not_retained (d : Decoders) (b b1 b2 b3 : tbranch)
    (r r1 r2 r3 r4 : RBuffer) (vers : Nat) (pos : Int) (bcnt n : Nat) (herr : r.err = none)
    (hver : ReadVersion r = .ret (vers, pos, bcnt) r1) (h12 : 12 ≤ vers)
    (hpre : readPreamble d
        { b with tree := none, currbasket := none, firstbasket := -1, nextbasket := -1 } r1
      = .ret none (b1, r2))
    (hsc : readScalars b1 r2 = .ret () (b2, r3))
    (harr : readObjArrays d b2 r3 = .ret none (b3, r4))
    (hn : b2.maxBaskets = (n : Int)) :
    (UnmarshalROOT d b r).state.1.basketEntry = List.replicate n 0
      ∧ ∀ (s : GoString) (r5 : RBuffer), r4.err = none →
          r4.r.c + 3 + 20 * n ≤ r4.r.p.length →
          ReadString ⟨⟨r4.r.p, r4.r.c + 3 + 20 * n⟩, none⟩ = .ret s r5 →
          ∃ b4 : tbranch, readTables b3 r4 = .ret () (b4, r5)
            ∧ b4.basketEntry = List.replicate n 0 := by
  have h3 : b3.maxBaskets = (n : Int) := by
    have := readObjArrays_maxBaskets d b2 r3
    rw [harr] at this
    exact this.trans hn
  have hnn : b3.maxBaskets.toNat = n := by rw [h3, Int.toNat_ofNat]
  constructor
  · have ht := readTables_entry b3 r4 (by omega)
    rw [hnn] at ht
    rw [unmarshal_past_arrays d b b1 b2 b3 r r1 r2 r3 r4 vers pos bcnt herr hver h12 hpre hsc
      harr]
    cases hx : readTables b3 r4 with
    | panic pv s =>
      rw [hx] at ht
      exact ht
    | ret u s =>
      obtain ⟨b4, r5⟩ := s
      rw [hx] at ht
      simp only [Exec.state] at ht
      simp only []
      rw [(finish_tables pos bcnt r.Pos b4 r5).2.2.1]
      exact ht
  · intro s r5 herr4 hlen hs
    have hr4 : r4 = ⟨⟨r4.r.p, r4.r.c⟩, none⟩ := by
      obtain ⟨⟨p, c⟩, e⟩ := r4
      simp only at herr4
      subst herr4
      rfl
    have ht := readTables_ok b3 r4.r.p r4.r.c n h3 hlen s r5 hs
    rw [← hr4] at ht
    exact ⟨_, ht, rfl⟩

set_option maxRecDepth 100000 in
theorem C12_basket_entry_not_retained_witness :
    (UnmarshalROOT sampleDecoders tbranch.zero ⟨⟨samplePayload, 0⟩, none⟩).state.1.basketEntry
        = [0]
      ∧ ((samplePayload.drop 100).take 8 = [0, 0, 0, 0, 0, 0, 0, 7]) :=
  ⟨(C12_basket_entry_not_retained sampleDecoders tbranch.zero
    { tbranch.zero with named := ⟨[0x70, 0x78], []⟩, firstbasket := -1, nextbasket := -1 }
    { tbranch.zero with
        named := ⟨[0x70, 0x78], []⟩, firstbasket := -1, nextbasket := -1, maxBaskets := 1 }
    { tbranch.zero with
        named := ⟨[0x70, 0x78], []⟩, firstbasket := -1, nextbasket := -1, maxBaskets := 1 }
    ⟨⟨samplePayload, 0⟩, none⟩ ⟨⟨samplePayload, 6⟩, none⟩ ⟨⟨samplePayload, 14⟩, none⟩
    ⟨⟨samplePayload, 82⟩, none⟩ ⟨⟨samplePayload, 94⟩, none⟩
    12 4 114 1 rfl rfl (by decide) rfl rfl rfl rfl).1, rfl⟩

theorem readObjArrays_splitLevel (d : Decoders) (b b1 : tbranch) (r r1 : RBuffer)
    (h : readObjArrays d b r = .ret none (b1, r1)) : b1.splitLevel = b.splitLevel := by
  unfold readObjArrays at h
  cases h1 : readBranches d b r with
  | panic pv s => simp [h1] at h
  | ret e1 s1 =>
    obtain ⟨x1, q1⟩ := s1
    cases e1 with
    | some e => simp [h1] at h
    | none =>
      simp only [h1] at h
      have k1 : x1.splitLevel = b.splitLevel := by
        unfold readBranches at h1
        split at h1
        · cases h1
        · cases h1
        · split at h1
          · cases h1
          · simp only [] at h1
            split at h1
            · cases h1
            · cases h1
              rfl
      cases h2 : readLeaves d x1 q1 with
      | panic pv s => simp [h2] at h
      | ret e2 s2 =>
        obtain ⟨x2, q2⟩ := s2
        cases e2 with
        | some e => simp [h2] at h
        | none =>
          simp only [h2] at h
          have k2 : x2.splitLevel = x1.splitLevel := by
            unfold readLeaves at h2
            split at h2
            · cases h2
            · cases h2
            · split at h2
              · cases h2
              · simp only [] at h2
                split at h2
                · cases h2
                · cases h2
                  rfl
          have k3 : b1.splitLevel = x2.splitLevel := by
            unfold readBaskets at h
            split at h
            · cases h
            · cases h
            · split at h
              · cases h
              · simp only [] at h
                split at h
                · cases h
                · cases h
                  rfl
          rw [k3, k2, k1]

theorem readTables_splitLevel_branches (b b1 : tbranch) (r r1 : RBuffer)
    (h : readTables b r = .ret () (b1, r1)) :
    b1.splitLevel = b.splitLevel ∧ b1.branches = b.branches := by
  unfold readTables at h
  cases hm : make (0 : Int) b.maxBaskets with
  | none => simp [hm] at h
  | some l =>
    simp only [hm] at h
    cases h1 : ReadI8 r with
    | panic pv s => simp [h1] at h
    | ret v1 s1 =>
      simp only [h1] at h
      cases h2 : ReadFastArrayI32 b.maxBaskets s1 with
      | panic pv s => simp [h2] at h
      | ret v2 s2 =>
        simp only [h2] at h
        cases h3 : ReadI8 s2 with
        | panic pv s => simp [h3] at h
        | ret v3 s3 =>
          simp only [h3] at h
          cases h4 : ReadFastArrayI64 b.maxBaskets s3 with
          | panic pv s => simp [h4] at h
          | ret v4 s4 =>
            simp only [h4] at h
            cases h5 : ReadI8 s4 with
            | panic pv s => simp [h5] at h
            | ret v5 s5 =>
              simp only [h5] at h
              cases h6 : ReadFastArrayI64 b.maxBaskets s5 with
              | panic pv s => simp [h6] at h
              | ret v6 s6 =>
                simp only [h6] at h
                cases h7 : ReadString s6 with
                | panic pv s => simp [h7] at h
                | ret v7 s7 =>
                  simp only [h7] at h
                  cases h
                  exact ⟨rfl, rfl⟩

/-- The last stage always returns, with the split level promoted when needed. -/
theorem finish_ret (pos : Int) (bcnt : Nat) (beg : Int) (b : tbranch) (r : RBuffer) :
    ∃ (e : Option Error) (rf : RBuffer),
      finish pos bcnt beg b r
        = .ret e
            (if b.splitLevel = 0 ∧ b.branches.length > 0 then { b with splitLevel := 1 } else b,
              rf) := by
  unfold finish CheckByteCount
  split_ifs <;> exact ⟨_, _, rfl⟩

/-- C13: on a payload that `tbranch.UnmarshalROOT` decodes to its end (through
`fname`), the call returns and the resulting `splitLevel` is `1` when the
`split_level` on the wire is `0` and the decoded `branches` are not empty, and
is the wire value otherwise; so the result never has `splitLevel = 0` together
with a child. -/
theorem C13_split_level_promotion (d : Decoders) (b b1 b2 b3 b4 : tbranch)
    (r r1 r2 r3 r4 r5 : RBuffer) (vers : Nat) (pos : Int) (bcnt : Nat) (herr : r.err = none)
    (hver : ReadVersion r = .ret (vers, pos, bcnt) r1) (h12 : 12 ≤ vers)
    (hpre : readPreamble d
        { b with tree := none, currbasket := none, firstbasket := -1, nextbasket := -1 } r1
      = .ret none (b1, r2))
    (herr2 : r2.err = none) (hlen : r2.r.c + 68 ≤ r2.r.p.length)
    (hsc : readScalars b1 r2 = .ret () (b2, r3))
    (harr : readObjArrays d b2 r3 = .ret none (b3, r4))
    (htab : readTables b3 r4 = .ret () (b4, r5)) :
    ∃ (e : Option Error) (bf : tbranch) (rf : RBuffer),
      UnmarshalROOT d b r = .ret e (bf, rf)
        ∧ bf.branches = b3.branches
        ∧ bf.splitLevel
          = (if toSigned 32 (beNat r2.r.p (r2.r.c + 32) 4) = 0 ∧ bf.branches.length > 0 then 1
              else toSigned 32 (beNat r2.r.p (r2.r.c + 32) 4))
        ∧ ¬ (bf.splitLevel = 0 ∧ bf.branches.length > 0) := by
  have hwire : b2.splitLevel = toSigned 32 (beNat r2.r.p (r2.r.c + 32) 4) := by
    have hr2 : r2 = ⟨⟨r2.r.p, r2.r.c⟩, none⟩ := by
      obtain ⟨⟨p, c⟩, e⟩ := r2
      simp only at herr2
      subst herr2
      rfl
    have hs := readScalars_ok b1 r2.r.p r2.r.c hlen
    rw [← hr2, hsc] at hs
    simp only [Exec.ret.injEq, Prod.mk.injEq, true_and] at hs
    rw [hs.1]
  have h3 := readObjArrays_splitLevel d b2 b3 r3 r4 harr
  obtain ⟨h4, h4b⟩ := readTables_splitLevel_branches b3 b4 r4 r5 htab
  have hsl : b4.splitLevel = toSigned 32 (beNat r2.r.p (r2.r.c + 32) 4) := by
    rw [h4, h3, hwire]
  obtain ⟨e, rf, hf⟩ := finish_ret pos bcnt r.Pos b4 r5
  refine ⟨e,
    if b4.splitLevel = 0 ∧ b4.branches.length > 0 then { b4 with splitLevel := 1 } else b4, rf,
    ?_, ?_, ?_, ?_⟩
  · rw [unmarshal_past_arrays d b b1 b2 b3 r r1 r2 r3 r4 vers pos bcnt herr hver h12 hpre hsc
      harr, htab]
    exact hf
  · split_ifs
    · exact h4b
    · exact h4b
  · by_cases hc : b4.splitLevel = 0 ∧ b4.branches.length > 0
    · rw [if_pos hc]
      simp only []
      rw [if_pos ⟨hsl ▸ hc.1, hc.2⟩]
    · rw [if_neg hc, hsl]
      rw [hsl] at hc
      rw [if_neg hc]
  · by_cases hc : b4.splitLevel = 0 ∧ b4.branches.length > 0
    · rw [if_pos hc]
      simp
    · rw [if_neg hc]
      exact hc

set_option maxRecDepth 100000 in
theorem C13_split_level_promotion_witness :
    ∃ (e : Option Error) (bf : tbranch) (rf : RBuffer),
      UnmarshalROOT sampleDecoders tbranch.zero ⟨⟨sampleParentPayload, 0⟩, none⟩ = .ret e (bf, rf)
        ∧ bf.branches = [tbranch.zero]
        ∧ bf.splitLevel
          = (if toSigned 32 (beNat sampleParentPayload (14 + 32) 4) = 0 ∧ bf.branches.length > 0
              then 1 else toSigned 32 (beNat sampleParentPayload (14 + 32) 4))
        ∧ ¬ (bf.splitLevel = 0 ∧ bf.branches.length > 0) :=
  C13_split_level_promotion sampleDecoders tbranch.zero
    { tbranch.zero with named := ⟨[0x70, 0x78], []⟩, firstbasket := -1, nextbasket := -1 }
    { tbranch.zero with
        named := ⟨[0x70, 0x78], []⟩, firstbasket := -1, nextbasket := -1, maxBaskets := 1 }
    { tbranch.zero with
        named := ⟨[0x70, 0x78], []⟩, firstbasket := -1, nextbasket := -1, maxBaskets := 1,
        branches := [tbranch.zero] }
    { tbranch.zero with
        named := ⟨[0x70, 0x78], []⟩, firstbasket := -1, nextbasket := -1, maxBaskets := 1,
        branches := [tbranch.zero], basketBytes := [100], basketEntry := [0],
        basketSeek := [4096] }
    ⟨⟨sampleParentPayload, 0⟩, none⟩ ⟨⟨sampleParentPayload, 6⟩, none⟩
    ⟨⟨sampleParentPayload, 14⟩, none⟩ ⟨⟨sampleParentPayload, 82⟩, none⟩
    ⟨⟨sampleParentPayload, 95⟩, none⟩ ⟨⟨sampleParentPayload, 119⟩, none⟩
    12 4 115 rfl rfl (by decide) rfl rfl (Nat.le_of_ble_eq_true rfl) rfl rfl rfl

/-! ## `readbasket` and `readentry`; errors; the object arrays -/

/-- C14 (the code on a receiver that was read from): `tbranch.UnmarshalROOT`
never assigns `readbasket` or `readentry`, in any outcome they are what they
were before the call; decoding the sample payload into a branch with
`readbasket = 3` and `readentry = 7` returns nil with `currbasket = nil`,
`firstbasket = -1`, `nextbasket = -1`, `tree = nil`, but `readbasket = 3` and
`readentry = 7` instead of `0` and `0`. -/
theorem C14_readbasket_readentry_not_reset :
    (∀ (d : Decoders) (b : tbranch) (r : RBuffer),
        (UnmarshalROOT d b r).state.1.readbasket = b.readbasket
          ∧ (UnmarshalROOT d b r).state.1.readentry = b.readentry)
      ∧ ∃ bf : tbranch,
          UnmarshalROOT sampleDecoders { tbranch.zero with readbasket := 3, readentry := 7 }
              ⟨⟨samplePayload, 0⟩, none⟩
            = .ret none (bf, ⟨⟨samplePayload, 118⟩, none⟩)
          ∧ bf.currbasket = none ∧ bf.firstbasket = -1 ∧ bf.nextbasket = -1 ∧ bf.tree = none
          ∧ bf.readbasket = 3 ∧ bf.readentry = 7 := by
  constructor
  · intro d b r
    by_cases herr : r.err = none
    · cases hv : ReadVersion r with
      | panic pv s =>
        unfold UnmarshalROOT RBuffer.Err
        rw [if_neg (by simp [herr]), hv]
        exact ⟨rfl, rfl⟩
      | ret x r1 =>
        have h := unmarshal_readState d b r r1 x herr hv
        simp only [tbranch.readState, Prod.mk.injEq] at h
        exact ⟨h.1, h.2.1⟩
    · unfold UnmarshalROOT RBuffer.Err
      rw [if_pos herr]
      exact ⟨rfl, rfl⟩
  · refine ⟨{ tbranch.zero with
        named := ⟨[0x70, 0x78], []⟩, firstbasket := -1, nextbasket := -1, maxBaskets := 1,
        basketBytes := [100], basketEntry := [0], basketSeek := [4096], readbasket := 3,
        readentry := 7 }, ?_, rfl, rfl, rfl, rfl, rfl, rfl⟩
    set_option maxRecDepth 100000 in rfl

/-- C15 (as stated, refuted): on the sample payload whose first object array
holds an element of an unknown class, `tbranch.UnmarshalROOT` returns the
non-nil error `UnknownClass`, and the receiver, which was the zero branch, now
has `maxBaskets = 1`, `firstbasket = -1`, `nextbasket = -1` and the name `"px"`. -/
theorem C15_counterexample :
    ∃ (bf : tbranch) (rf : RBuffer),
      UnmarshalROOT sampleDecoders tbranch.zero ⟨⟨sampleBadArrayPayload, 0⟩, none⟩
          = .ret (some (.UnknownClass "TUnknown")) (bf, rf)
        ∧ bf.maxBaskets = 1 ∧ tbranch.zero.maxBaskets = 0
        ∧ bf.firstbasket = -1 ∧ tbranch.zero.firstbasket = 0
        ∧ bf.named.name = [0x70, 0x78] ∧ tbranch.zero.named.name = [] := by
  refine ⟨{ tbranch.zero with
      named := ⟨[0x70, 0x78], []⟩, firstbasket := -1, nextbasket := -1, maxBaskets := 1 },
    ⟨⟨sampleBadArrayPayload, 87⟩, some (.UnknownClass "TUnknown")⟩, ?_, rfl, rfl, rfl, rfl, rfl,
    rfl⟩
  set_option maxRecDepth 100000 in rfl

/-- C15 (amended): when `tbranch.UnmarshalROOT` returns a non-nil error the
receiver is as the decode had filled it up to the failing step. If the sticky
error was set on entry, every field is as before the call. Otherwise `tree` and
`currbasket` are nil, `firstbasket` and `nextbasket` are `-1`, and `readbasket`,
`readentry`, `mother`, `parent`, `dir` are as before the call; and when it is
the first object array that fails, the receiver holds the decoded `named`,
`attfill` and scalar block and the buffer carries the error. -/
theorem C15_error_keeps_decoded_fields (d : Decoders) (b : tbranch) (r : RBuffer) :
    (r.err ≠ none → UnmarshalROOT d b r = .ret r.err (b, r))
      ∧ (r.err = none → ∀ (e : Error) (bf : tbranch) (rf : RBuffer),
          UnmarshalROOT d b r = .ret (some e) (bf, rf) →
          bf.readState
            = (b.readbasket, b.readentry, -1, -1, none, none, b.mother, b.parent, b.dir))
      ∧ (∀ (vers : Nat) (pos : Int) (bcnt : Nat) (r1 r2 r3 r4 : RBuffer) (b1 b2 : tbranch)
          (e : Error) (a : objarray),
          r.err = none → ReadVersion r = .ret (vers, pos, bcnt) r1 → 12 ≤ vers →
          readPreamble d
              { b with tree := none, currbasket := none, firstbasket := -1, nextbasket := -1 }
              r1 = .ret none (b1, r2) →
          readScalars b1 r2 = .ret () (b2, r3) →
          d.objarray objarray.zero r3 = .ret (some e) (a, r4) →
          UnmarshalROOT d b r = .ret (some e) (b2, { r4 with err := some e })) := by
  refine ⟨?_, ?_, ?_⟩
  · intro herr
    unfold UnmarshalROOT RBuffer.Err
    rw [if_pos herr]
  · intro herr e bf rf h
    cases hv : ReadVersion r with
    | panic pv s =>
      unfold UnmarshalROOT RBuffer.Err at h
      rw [if_neg (by simp [herr]), hv] at h
      cases h
    | ret x r1 =>
      have hs := unmarshal_readState d b r r1 x herr hv
      rw [h] at hs
      exact hs
  · intro vers pos bcnt r1 r2 r3 r4 b1 b2 e a herr hver h12 hpre hsc harr
    unfold UnmarshalROOT RBuffer.Err
    rw [if_neg (by simp [herr]), hver]
    simp only []
    rw [if_neg (by omega), hpre]
    simp only []
    rw [hsc]
    simp only [decodeRest, readObjArrays, readBranches, harr]

set_option maxRecDepth 100000 in
theorem C15_error_keeps_decoded_fields_witness :
    UnmarshalROOT sampleDecoders tbranch.zero
        ⟨⟨samplePayload, 0⟩, some (.Truncated 4 2)⟩
        = .ret (some (.Truncated 4 2)) (tbranch.zero, ⟨⟨samplePayload, 0⟩, some (.Truncated 4 2)⟩)
      ∧ UnmarshalROOT sampleDecoders tbranch.zero ⟨⟨sampleBadArrayPayload, 0⟩, none⟩
        = .ret (some (.UnknownClass "TUnknown"))
            ({ tbranch.zero with
                named := ⟨[0x70, 0x78], []⟩, firstbasket := -1, nextbasket := -1,
                maxBaskets := 1 },
              ⟨⟨sampleBadArrayPayload, 87⟩, some (.UnknownClass "TUnknown")⟩)
      ∧ tbranch.readState
          { tbranch.zero with
            named := ⟨[0x70, 0x78], []⟩, firstbasket := -1, nextbasket := -1, maxBaskets := 1 }
        = (0, 0, -1, -1, none, none, none, none, none) :=
  ⟨(C15_error_keeps_decoded_fields sampleDecoders tbranch.zero
      ⟨⟨samplePayload, 0⟩, some (.Truncated 4 2)⟩).1 (by decide),
    (C15_error_keeps_decoded_fields sampleDecoders tbranch.zero
      ⟨⟨sampleBadArrayPayload, 0⟩, none⟩).2.2 12 4 114
      ⟨⟨sampleBadArrayPayload, 6⟩, none⟩ ⟨⟨sampleBadArrayPayload, 14⟩, none⟩
      ⟨⟨sampleBadArrayPayload, 82⟩, none⟩
      ⟨⟨sampleBadArrayPayload, 87⟩, some (.UnknownClass "TUnknown")⟩
      { tbranch.zero with named := ⟨[0x70, 0x78], []⟩, firstbasket := -1, nextbasket := -1 }
      { tbranch.zero with
          named := ⟨[0x70, 0x78], []⟩, firstbasket := -1, nextbasket := -1, maxBaskets := 1 }
      (.UnknownClass "TUnknown") ⟨0, []⟩ rfl rfl (by decide) rfl rfl rfl,
    (C15_error_keeps_decoded_fields sampleDecoders tbranch.zero
      ⟨⟨sampleBadArrayPayload, 0⟩, none⟩).2.1 rfl (.UnknownClass "TUnknown")
      { tbranch.zero with
          named := ⟨[0x70, 0x78], []⟩, firstbasket := -1, nextbasket := -1, maxBaskets := 1 }
      ⟨⟨sampleBadArrayPayload, 87⟩, some (.UnknownClass "TUnknown")⟩ rfl⟩

/-- The copy loop over an object array that holds, at each index it visits, an
element of the asserted type: no panic, the visited entries are the elements
of the array, the others are left alone. -/
theorem copyLoop_ok {α : Type} (assert : Object → Option α) (arr : objarray) :
    ∀ (k i : Nat) (l : List α), i + k ≤ l.length →
      (∀ j, i ≤ j → j < i + k → ∃ x, (arr.At j).bind assert = some x) →
      ∃ l1, copyLoop assert arr k i l = .ret () l1
        ∧ l1.length = l.length
        ∧ (∀ j, i ≤ j → j < i + k → l1[j]? = (arr.At j).bind assert)
        ∧ (∀ j, j < i → l1[j]? = l[j]?) := by
  intro k
  induction k with
  | zero =>
    intro i l _ _
    exact ⟨l, rfl, rfl, fun j h1 h2 => absurd h2 (by omega), fun _ _ => rfl⟩
  | succ k ih =>
    intro i l hl hel
    obtain ⟨x, hx⟩ := hel i (Nat.le_refl _) (by omega)
    cases ho : arr.At i with
    | none => simp [ho] at hx
    | some o =>
      rw [ho] at hx
      simp only [Option.some_bind] at hx
      obtain ⟨l1, h1, h2, h3, h4⟩ := ih (i + 1) (l.set i x) (by rw [List.length_set]; omega)
        (fun j hj1 hj2 => hel j (by omega) (by omega))
      refine ⟨l1, ?_, ?_, ?_, ?_⟩
      · simp only [copyLoop, ho, hx]
        exact h1
      · rw [h2, List.length_set]
      · intro j hj1 hj2
        rcases Nat.eq_or_lt_of_le hj1 with heq | hlt
        · subst heq
          rw [h4 i (by omega), List.getElem?_set_self (by omega), ho, Option.some_bind, hx]
        · exact h3 j (by omega) (by omega)
      · intro j hj
        rw [h4 j (by omega), List.getElem?_set_ne (by omega)]

theorem make_length {α : Type} (zero : α) (n : Int) (l : List α) (h : make zero n = some l) :
    0 ≤ n ∧ l.length = n.toNat := by
  unfold make at h
  split at h
  · cases h
  · cases h
    exact ⟨by omega, List.length_replicate _ _⟩

theorem make_negative {α : Type} (zero : α) (n : Int) (h : n < 0) : make zero n = none := by
  unfold make
  rw [if_pos h]

/-- The stage `readBranches` on an object array decoded without error. -/
theorem readBranches_ok (d : Decoders) (b : tbranch) (r r1 : RBuffer) (a : objarray)
    (hdec : d.objarray objarray.zero r = .ret none (a, r1)) :
    (-1 ≤ a.last →
        (∀ j, j < (a.last + 1).toNat → ∃ x, (a.At j).bind Object.toBranch = some x) →
        ∃ l, readBranches d b r = .ret none ({ b with branches := l }, r1)
          ∧ (l.length : Int) = a.last + 1
          ∧ ∀ j, j < l.length → l[j]? = (a.At j).bind Object.toBranch)
      ∧ (a.last < -1 → readBranches d b r = .panic .makeNegative (b, r1)) := by
  constructor
  · intro hlast hel
    have hm : make tbranch.zero (a.last + 1) = some (List.replicate (a.last + 1).toNat tbranch.zero) :=
      make_of_nonneg _ _ (by omega)
    obtain ⟨l1, h1, h2, h3, _⟩ := copyLoop_ok Object.toBranch a (a.last + 1).toNat 0
      (List.replicate (a.last + 1).toNat tbranch.zero) (by simp)
      (fun j _ hj => hel j (by omega))
    rw [List.length_replicate] at h2
    refine ⟨l1, ?_, ?_, ?_⟩
    · simp only [readBranches, hdec, hm, List.length_replicate, h1]
    · rw [h2]
      exact Int.toNat_of_nonneg (by omega)
    · intro j hj
      exact h3 j (Nat.zero_le _) (by omega)
  · intro hlast
    simp only [readBranches, hdec, make_negative _ _ (show a.last + 1 < 0 by omega)]

/-- The stage `readLeaves` on an object array decoded without error. -/
theorem readLeaves_ok (d : Decoders) (b : tbranch) (r r1 : RBuffer) (a : objarray)
    (hdec : d.objarray objarray.zero r = .ret none (a, r1)) :
    (-1 ≤ a.last →
        (∀ j, j < (a.last + 1).toNat → ∃ x, (a.At j).bind Object.toLeaf = some x) →
        ∃ l, readLeaves d b r = .ret none ({ b with leaves := l }, r1)
          ∧ (l.length : Int) = a.last + 1
          ∧ ∀ j, j < l.length → l[j]? = (a.At j).bind Object.toLeaf)
      ∧ (a.last < -1 → readLeaves d b r = .panic .makeNegative (b, r1)) := by
  constructor
  · intro hlast hel
    have hm : make Leaf.zero (a.last + 1) = some (List.replicate (a.last + 1).toNat Leaf.zero) :=
      make_of_nonneg _ _ (by omega)
    obtain ⟨l1, h1, h2, h3, _⟩ := copyLoop_ok Object.toLeaf a (a.last + 1).toNat 0
      (List.replicate (a.last + 1).toNat Leaf.zero) (by simp)
      (fun j _ hj => hel j (by omega))
    rw [List.length_replicate] at h2
    refine ⟨l1, ?_, ?_, ?_⟩
    · simp only [readLeaves, hdec, hm, List.length_replicate, h1]
    · rw [h2]
      exact Int.toNat_of_nonneg (by omega)
    · intro j hj
      exact h3 j (Nat.zero_le _) (by omega)
  · intro hlast
    simp only [readLeaves, hdec, make_negative _ _ (show a.last + 1 < 0 by omega)]

/-- The stage `readBaskets` on an object array decoded without error. -/
theorem readBaskets_ok (d : Decoders) (b : tbranch) (r r1 : RBuffer) (a : objarray)
    (hdec : d.objarray objarray.zero r = .ret none (a, r1)) :
    (-1 ≤ a.last →
        (∀ j, j < (a.last + 1).toNat → ∃ x, (a.At j).bind Object.toBasket = some x) →
        ∃ l, readBaskets d b r = .ret none ({ b with baskets := l }, r1)
          ∧ (l.length : Int) = a.last + 1
          ∧ ∀ j, j < l.length → l[j]? = (a.At j).bind Object.toBasket)
      ∧ (a.last < -1 → readBaskets d b r = .panic .makeNegative (b, r1)) := by
  constructor
  · intro hlast hel
    have hm : make Basket.zero (a.last + 1) = some (List.replicate (a.last + 1).toNat Basket.zero) :=
      make_of_nonneg _ _ (by omega)
    obtain ⟨l1, h1, h2, h3, _⟩ := copyLoop_ok Object.toBasket a (a.last + 1).toNat 0
      (List.replicate (a.last + 1).toNat Basket.zero) (by simp)
      (fun j _ hj => hel j (by omega))
    rw [List.length_replicate] at h2
    refine ⟨l1, ?_, ?_, ?_⟩
    · simp only [readBaskets, hdec, hm, List.length_replicate, h1]
    · rw [h2]
      exact Int.toNat_of_nonneg (by omega)
    · intro j hj
      exact h3 j (Nat.zero_le _) (by omega)
  · intro hlast
    simp only [readBaskets, hdec, make_negative _ _ (show a.last + 1 < 0 by omega)]

/-- C16 (as stated, refuted): on the sample payload whose first object array is
decoded without error with `last = -2`, the sequence of sub-branches does not
get length 0: `make([]tbranch, last+1)` panics and the call does not return. -/
theorem C16_counterexample :
    sampleDecoders.objarray objarray.zero ⟨⟨sampleNegativeLastPayload, 82⟩, none⟩
        = .ret none (⟨-2, []⟩, ⟨⟨sampleNegativeLastPayload, 86⟩, none⟩)
      ∧ UnmarshalROOT sampleDecoders tbranch.zero ⟨⟨sampleNegativeLastPayload, 0⟩, none⟩
        = .panic .makeNegative
            ({ tbranch.zero with
                named := ⟨[0x70, 0x78], []⟩, firstbasket := -1, nextbasket := -1,
                maxBaskets := 1 },
              ⟨⟨sampleNegativeLastPayload, 86⟩, none⟩) := by
  constructor
  · set_option maxRecDepth 100000 in rfl
  · set_option maxRecDepth 100000 in rfl

/-- C16 (amended): for each of the three object arrays (sub-branches, leaves,
baskets) decoded without error with header field `last >= -1` and with an
element of the asserted type (`*tbranch`, `Leaf`, `*Basket`) at every index up
to `last`, the corresponding sequence of the branch has length `last + 1` (so
length 0 for `last = -1`) and its `i`-th entry is the `i`-th element of the
array; for `last < -1` the allocation `make([]T, last+1)` panics. -/
theorem C16_object_array_lengths (d : Decoders) (b : tbranch) (r r1 : RBuffer) (a : objarray)
    (hdec : d.objarray objarray.zero r = .ret none (a, r1)) :
    (-1 ≤ a.last →
        ((∀ j, j < (a.last + 1).toNat → ∃ x, (a.At j).bind Object.toBranch = some x) →
          ∃ l, readBranches d b r = .ret none ({ b with branches := l }, r1)
            ∧ (l.length : Int) = a.last + 1
            ∧ ∀ j, j < l.length → l[j]? = (a.At j).bind Object.toBranch)
        ∧ ((∀ j, j < (a.last + 1).toNat → ∃ x, (a.At j).bind Object.toLeaf = some x) →
          ∃ l, readLeaves d b r = .ret none ({ b with leaves := l }, r1)
            ∧ (l.length : Int) = a.last + 1
            ∧ ∀ j, j < l.length → l[j]? = (a.At j).bind Object.toLeaf)
        ∧ ((∀ j, j < (a.last + 1).toNat → ∃ x, (a.At j).bind Object.toBasket = some x) →
          ∃ l, readBaskets d b r = .ret none ({ b with baskets := l }, r1)
            ∧ (l.length : Int) = a.last + 1
            ∧ ∀ j, j < l.length → l[j]? = (a.At j).bind Object.toBasket))
      ∧ (a.last < -1 →
          readBranches d b r = .panic .makeNegative (b, r1)
            ∧ readLeaves d b r = .panic .makeNegative (b, r1)
            ∧ readBaskets d b r = .panic .makeNegative (b, r1)) :=
  ⟨fun h => ⟨(readBranches_ok d b r r1 a hdec).1 h, (readLeaves_ok d b r r1 a hdec).1 h,
      (readBaskets_ok d b r r1 a hdec).1 h⟩,
    fun h => ⟨(readBranches_ok d b r r1 a hdec).2 h, (readLeaves_ok d b r r1 a hdec).2 h,
      (readBaskets_ok d b r r1 a hdec).2 h⟩⟩

set_option maxRecDepth 100000 in
theorem C16_object_array_lengths_witness :
    (∃ l : List tbranch,
        readBranches sampleDecoders tbranch.zero ⟨⟨sampleParentPayload, 82⟩, none⟩
            = .ret none ({ tbranch.zero with branches := l }, ⟨⟨sampleParentPayload, 87⟩, none⟩)
          ∧ (l.length : Int) = 0 + 1
          ∧ ∀ j, j < l.length →
              l[j]? = (objarray.At ⟨0, [.branch tbranch.zero]⟩ j).bind Object.toBranch)
      ∧ readBranches sampleDecoders tbranch.zero ⟨⟨sampleNegativeLastPayload, 82⟩, none⟩
        = .panic .makeNegative (tbranch.zero, ⟨⟨sampleNegativeLastPayload, 86⟩, none⟩) :=
  ⟨((C16_object_array_lengths sampleDecoders tbranch.zero ⟨⟨sampleParentPayload, 82⟩, none⟩
        ⟨⟨sampleParentPayload, 87⟩, none⟩ ⟨0, [.branch tbranch.zero]⟩ (by rfl)).1 (by decide)).1
      (fun j hj => ⟨tbranch.zero, by
        have hj0 : j = 0 := by simpa using hj
        subst hj0
        rfl⟩),
    ((C16_object_array_lengths sampleDecoders tbranch.zero
        ⟨⟨sampleNegativeLastPayload, 82⟩, none⟩ ⟨⟨sampleNegativeLastPayload, 86⟩, none⟩
        ⟨-2, []⟩ (by rfl)).2 (by decide)).1⟩

/-! ## `EnergySmearing.Process` -/

/-- The loop appends, in input order, one candidate for each input candidate
whose smeared energy fails the test `ene <= 0`. -/
theorem smearLoop_output {Cand P4 Src Store : Type} (env : FadsEnv Cand P4 Src Store)
    (smear : float64 → float64 → float64) :
    ∀ (input : List Cand) (src : Src) (output : List Cand),
      (smearLoop env smear input src output).1
        = output ++ (input.zip (smearedEnergies env smear input src)).filterMap
            (fun ce => if ce.2.leZero then none else some (smearedCandidate env ce.1 ce.2)) := by
  intro input
  induction input with
  | nil =>
    intro src output
    simp [smearLoop, smearedEnergies]
  | cons cand rest ih =>
    intro src output
    simp only [smearLoop, smearedEnergies, List.zip_cons_cons, List.filterMap_cons]
    split
    · rw [ih]
    · rw [ih, List.append_assoc]
      rfl

theorem smearedEnergies_length {Cand P4 Src Store : Type} (env : FadsEnv Cand P4 Src Store)
    (smear : float64 → float64 → float64) :
    ∀ (input : List Cand) (src : Src),
      (smearedEnergies env smear input src).length = input.length := by
  intro input
  induction input with
  | nil => intro src; rfl
  | cons cand rest ih =>
    intro src
    simp only [smearedEnergies, List.length_cons, ih]

theorem gtZero_not_leZero (e : float64) (h : e.gtZero = true) : e.leZero = false := by
  simp only [float64.gtZero, float64.leZero, Bool.and_eq_true, Bool.not_eq_true',
    decide_eq_true_eq] at h
  obtain ⟨⟨hn, hs⟩, hz⟩ := h
  simp [float64.leZero, hn, hs, hz]

theorem process_ok {Cand P4 Src Store : Type} (env : FadsEnv Cand P4 Src Store)
    (tsk : EnergySmearing Src) (store : Store) (input : List Cand)
    (hget : env.Get store tsk.input = (.candidates input, none)) :
    Process env tsk store
      = .ret none
          ((env.Put store tsk.output (smearLoop env tsk.smear input tsk.src []).1).1,
            { tsk with src := (smearLoop env tsk.smear input tsk.src []).2 }) := by
  simp only [Process, hget, ne_eq, not_true_eq_false, if_false]

/-- C19: when `store.Get(tsk.input)` succeeds (no error, a `[]Candidate`),
`EnergySmearing.Process` returns a nil error whatever `store.Put` returns: the
store is the one `Put` leaves, the error `Put` returns is dropped. -/
theorem C19_deferred_put_error_is_dropped {Cand P4 Src Store : Type}
    (env : FadsEnv Cand P4 Src Store) (tsk : EnergySmearing Src) (store : Store)
    (input : List Cand) (hget : env.Get store tsk.input = (.candidates input, none)) :
    Process env tsk store
      = .ret none
          ((env.Put store tsk.output (smearLoop env tsk.smear input tsk.src []).1).1,
            { tsk with src := (smearLoop env tsk.smear input tsk.src []).2 }) :=
  process_ok env tsk store input hget

theorem C19_deferred_put_error_is_dropped_witness :
    Process sampleEnv sampleTask sampleStore
        = .ret none
            ((sampleEnv.Put sampleStore sampleTask.output
                (smearLoop sampleEnv sampleTask.smear (sampleStore "in") sampleTask.src []).1).1,
              { sampleTask with
                src := (smearLoop sampleEnv sampleTask.smear (sampleStore "in")
                  sampleTask.src []).2 })
      ∧ (sampleEnv.Put sampleStore sampleTask.output
            (smearLoop sampleEnv sampleTask.smear (sampleStore "in") sampleTask.src []).1).2
          = some ⟨"read-only key"⟩ :=
  ⟨C19_deferred_put_error_is_dropped sampleEnv sampleTask sampleStore (sampleStore "in") rfl,
    rfl⟩

/-- C20: when `store.Get(tsk.input)` hands out the candidate list `input`, the
sequence `Process` puts under the output key holds, in input order, one
candidate (built from the input candidate and its smeared energy) for each
input candidate whose smeared energy is not `<= 0`, hence one for each whose
smeared energy is `> 0`, and none for one whose smeared energy is `<= 0`; its
length is at most that of `input`; and when the output key differs from the
input key and `Put` leaves other keys alone, the store still holds `input`
under the input key. -/
theorem C20_output_is_filtered_input {Cand P4 Src Store : Type}
    (env : FadsEnv Cand P4 Src Store) (tsk : EnergySmearing Src) (store : Store)
    (input : List Cand) (hget : env.Get store tsk.input = (.candidates input, none)) :
    ∃ (output : List Cand) (src1 : Src),
      Process env tsk store
          = .ret none ((env.Put store tsk.output output).1, { tsk with src := src1 })
        ∧ output
          = (input.zip (smearedEnergies env tsk.smear input tsk.src)).filterMap
              (fun ce => if ce.2.leZero then none else some (smearedCandidate env ce.1 ce.2))
        ∧ (smearedEnergies env tsk.smear input tsk.src).length = input.length
        ∧ (∀ e : float64, e.gtZero = true → e.leZero = false)
        ∧ output.length ≤ input.length
        ∧ (tsk.output ≠ tsk.input →
            (∀ (s : Store) (k : String) (v : List Cand), k ≠ tsk.input →
              env.Get (env.Put s k v).1 tsk.input = env.Get s tsk.input) →
            env.Get (env.Put store tsk.output output).1 tsk.input = (.candidates input, none)) := by
  refine ⟨(smearLoop env tsk.smear input tsk.src []).1, (smearLoop env tsk.smear input tsk.src []).2,
    process_ok env tsk store input hget, ?_, smearedEnergies_length env tsk.smear input tsk.src,
    gtZero_not_leZero, ?_, ?_⟩
  · rw [smearLoop_output, List.nil_append]
  · rw [smearLoop_output, List.nil_append]
    refine Nat.le_trans (List.length_filterMap_le _ _) ?_
    rw [List.length_zip, smearedEnergies_length, Nat.min_self]
  · intro hne hlaw
    rw [hlaw _ _ _ hne, hget]

theorem C20_output_is_filtered_input_witness :
    ∃ (output : List float64) (src1 : Nat),
      Process sampleEnv sampleTask sampleStore
          = .ret none
              ((sampleEnv.Put sampleStore sampleTask.output output).1,
                { sampleTask with src := src1 })
        ∧ output = [⟨0x3FF0000000000000⟩, ⟨0x7FF8000000000000⟩, ⟨0x4000000000000000⟩]
        ∧ output.length ≤ (sampleStore "in").length
        ∧ sampleEnv.Get (sampleEnv.Put sampleStore sampleTask.output output).1 sampleTask.input
          = (.candidates (sampleStore "in"), none) := by
  obtain ⟨output, src1, h1, h2, _, _, h5, h6⟩ :=
    C20_output_is_filtered_input sampleEnv sampleTask sampleStore (sampleStore "in") rfl
  refine ⟨output, src1, h1, ?_, h5, ?_⟩
  · rw [h2]
    decide
  · refine h6 (by decide) ?_
    intro s k v hk
    have hk' : ¬ ("in" = k) := fun h => hk h.symm
    simp [sampleEnv, sampleTask, hk']

end Hep
